import Mathlib

/-!
# Order workflow of the e-commerce server

A shallow embedding of `src/controllers/orderController.js` (with the parts of
`src/utils/validators.js`, `src/routes/order.js` and
`src/models/schemas/productSchema.js` it depends on), of `createProduct` and
`addProductRating` of `src/controllers/productController.js` and of the catch-all
handler of `src/app.js`, and the properties proved about them.

Modelling conventions.

* JavaScript numbers (prices, stock levels, quantities) are rational numbers, so
  that fractional quantities can be expressed; rounding of doubles is not modelled.
* Document ids (`ObjectId`s) are natural numbers, so every id a request carries is
  a well-formed one; a request field that is absent (or falsy) is `none`.
* The persistence store is a pair of lists; `findById` returns the first document
  with the id and `save` writes the modified paths of that document.
* A handler returns the store it leaves behind together with its response.
  `next(new ErrorResponse(message, code))` is `Response.failure`; an exception that
  escapes the handler body (and that `asyncHandler` forwards to the error
  middleware) is `Response.thrown`.
* `Promise.all(items.map(async (item) => ...))` starts every callback before any of
  them is resumed: each callback issues its `findById` before any callback reaches
  its `save`.  Every callback therefore works on its own copy of the product
  document as it stood when the `Promise.all` began, and the saves land in item
  order, each one writing the `stock` of its own copy.
-/

namespace Ecommerce

/-- Document identifier (`ObjectId`). -/
abbrev Id := Nat

/-- Product document (`src/models/schemas/productSchema.js`). -/
structure Product where
  id : Id
  name : String
  price : ℚ
  stock : ℚ
  description : String := ""
  category : String := "other"
  createdBy : Id := 0
deriving DecidableEq

/-- Line of a stored order: product reference, quantity and the price snapshot. -/
structure OrderItem where
  product : Id
  quantity : ℚ
  price : ℚ
deriving DecidableEq

/-- Modelled from the spec: the two order states of the Order schema
(`src/models/schemas/orderSchema.js` is not among the sources); the initial state is
`pending`. -/
inductive OrderStatus where
  | pending
  | cancelled
deriving DecidableEq

/-- Shipping address object as it arrives in a request body; a field that is absent is
`none`. -/
structure Address where
  street : Option String
  city : Option String
  state : Option String
  zipCode : Option String
  country : Option String
deriving DecidableEq

/-- Order document. -/
structure Order where
  id : Id
  user : Id
  items : List OrderItem
  totalAmount : ℚ
  shippingAddress : Address
  paymentMethod : String
  status : OrderStatus
deriving DecidableEq

/-- The Products and Orders collections. -/
structure Store where
  products : List Product
  orders : List Order
deriving DecidableEq

/-- The authenticated principal `req.user`. -/
structure User where
  id : Id
  role : String
deriving DecidableEq

/-- One entry of `req.body.items`.  `price` is a field a client may send; the handler
never reads it. -/
structure ItemReq where
  product : Option Id
  quantity : Option ℚ
  price : Option ℚ := none
deriving DecidableEq

/-- The value of `req.body.items`. -/
inductive ItemsField where
  | missing
  | notArray
  | array (items : List ItemReq)
deriving DecidableEq

/-- The value of `req.body.shippingAddress`; `notObject` is a truthy value whose
`typeof` is not `"object"`. -/
inductive AddressField where
  | missing
  | notObject
  | object (a : Address)
deriving DecidableEq

/-- The JSON body of `POST /orders`.  `totalAmount`, `user` and `status` are fields a
client may send; the handler never reads them. -/
structure Body where
  items : ItemsField
  shippingAddress : AddressField
  paymentMethod : Option String
  totalAmount : Option ℚ := none
  user : Option Id := none
  status : Option String := none
deriving DecidableEq

/-- The errors the order handlers pass to `next` as `new ErrorResponse(message, code)`. -/
inductive ApiError where
  /-- Message "Order must include at least one product item." -/
  | itemsRequired
  /-- Message "Shipping address is invalid or missing." -/
  | addressInvalid
  /-- Message "Payment method is required." -/
  | paymentRequired
  /-- Message "Each item must have a valid product ID and quantity." -/
  | itemInvalid
  /-- Message "Product with ID ... does not exist." -/
  | productNotFound (id : Id)
  /-- Message "Insufficient stock for product ... . Only ... units are available." -/
  | insufficientStock (name : String) (stock : ℚ)
  /-- Message "No orders found" -/
  | noOrders
  /-- Message "Order not found" -/
  | orderNotFound
  /-- Message "You are not authorized to view this order." -/
  | notAuthorizedView
  /-- Message "You are not authorized to cancel this order." -/
  | notAuthorizedCancel
  /-- Message "Only pending orders can be canceled." -/
  | notPending
deriving DecidableEq

/-- The status code given to `ErrorResponse` at each `next(...)` call. -/
def ApiError.statusCode : ApiError → Nat
  | .itemsRequired => 400
  | .addressInvalid => 400
  | .paymentRequired => 400
  | .itemInvalid => 400
  | .productNotFound _ => 404
  | .insufficientStock _ _ => 400
  | .noOrders => 404
  | .orderNotFound => 404
  | .notAuthorizedView => 403
  | .notAuthorizedCancel => 403
  | .notPending => 400

/-- What a handler does with the response. -/
inductive Response (α : Type) where
  | success (status : Nat) (data : α)
  | failure (err : ApiError)
  | thrown
deriving DecidableEq

/-- The HTTP status fixed by the handler; for `thrown` it is left to the error
middleware. -/
def Response.status? {α : Type} : Response α → Option Nat
  | .success s _ => some s
  | .failure e => some e.statusCode
  | .thrown => none

/-- Lookup `Product.findById`: the first product document with the id. -/
def findProduct (ps : List Product) (id : Id) : Option Product :=
  ps.find? (fun p => p.id == id)

/-- Lookup `Order.findById`: the first order document with the id. -/
def findOrder (os : List Order) (id : Id) : Option Order :=
  os.find? (fun o => o.id == id)

/-- The write `product.save()` sends after `product.stock` was assigned: the stock of
the stored document with that id is set. -/
def setStock : List Product → Id → ℚ → List Product
  | [], _, _ => []
  | p :: ps, id, v => if p.id = id then { p with stock := v } :: ps else p :: setStock ps id v

/-- The validator `min: [0, "Stock cannot be negative"]` of the product schema, run by
`save()` on the modified `stock` path. -/
def stockValid (v : ℚ) : Bool := decide (0 ≤ v)

/-- Outcome of one callback of a `Promise.all`: it threw, or it saved a product with a
new stock (and, in `createOrder`, returned a line and contributed to the total). -/
inductive Callback where
  | threw
  | saved (product : Id) (stock : ℚ) (line : OrderItem) (itemTotal : ℚ)
deriving DecidableEq

/-- The save a callback sent, if it got that far. -/
def Callback.write? : Callback → Option (Id × ℚ)
  | .threw => none
  | .saved id v _ _ => some (id, v)

/-- A list of saves applied to the Products collection, first to last. -/
def applySaves (ps : List Product) (ws : List (Id × ℚ)) : List Product :=
  ws.foldl (fun acc w => setStock acc w.1 w.2) ps

/-- The saves of the callbacks applied in item order. -/
def applyWrites (ps : List Product) (cs : List Callback) : List Product :=
  applySaves ps (cs.filterMap Callback.write?)

/-- The values the callbacks returned, when none of them threw (what `Promise.all`
resolves to; it rejects as soon as one callback throws). -/
def collectLines : List Callback → Option (List OrderItem)
  | [] => some []
  | .threw :: _ => none
  | .saved _ _ l _ :: cs => (collectLines cs).map (fun ls => l :: ls)

/-- The value of `totalAmount` after the callbacks ran (`totalAmount += itemTotal`,
starting from 0). -/
def accumulateTotal (cs : List Callback) : ℚ :=
  cs.foldl (fun acc c => match c with
    | .threw => acc
    | .saved _ _ _ t => acc + t) 0

/-- The truthiness of a numeric request field: absent, or the number zero, is falsy. -/
def truthyNum : Option ℚ → Bool
  | none => false
  | some q => decide (q ≠ 0)

/-- The truthiness of a string request field: absent, or the empty string, is falsy. -/
def truthyStr : Option String → Bool
  | none => false
  | some s => decide (s ≠ "")

/-- The validation loop of `createOrder` (lines 27-53): the error of the first item that
fails a check, or `none` when every item passes. -/
def validateItems (ps : List Product) : List ItemReq → Option ApiError
  | [] => none
  | item :: rest =>
    if item.product.isNone || !truthyNum item.quantity then some .itemInvalid
    else
      match item.product, item.quantity with
      | some pid, some q =>
        match findProduct ps pid with
        | none => some (.productNotFound pid)
        | some product =>
          if product.stock < q then some (.insufficientStock product.name product.stock)
          else validateItems ps rest
      | _, _ => some .itemInvalid

/-- One callback of the `Promise.all` of `createOrder` (lines 57-70), run on the product
documents `ps` read when the `Promise.all` began. -/
def orderCallback (ps : List Product) (item : ItemReq) : Callback :=
  match item.product, item.quantity with
  | some pid, some q =>
    match findProduct ps pid with
    | none => .threw
    | some product =>
      let itemTotal := product.price * q
      let stock := product.stock - q
      if stockValid stock then
        .saved pid stock { product := pid, quantity := q, price := product.price } itemTotal
      else .threw
  | _, _ => .threw

/-- Modelled from the spec: the validation `Order.create` runs against the Order schema
(`src/models/schemas/orderSchema.js` is not among the sources).  Every line has a
quantity of at least 1, the shipping address is an object whose five fields are all
present and non-empty, and the payment method is one of the three listed values.  The
result is the address and payment method stored on the order. -/
def orderSchemaValid (items : List OrderItem) (address : AddressField)
    (paymentMethod : Option String) : Option (Address × String) :=
  match address, paymentMethod with
  | .object a, some pm =>
    if items.all (fun l => decide (1 ≤ l.quantity))
        && truthyStr a.street && truthyStr a.city && truthyStr a.state
        && truthyStr a.zipCode && truthyStr a.country
        && (pm == "creditCard" || pm == "debitCard" || pm == "paypal")
    then some (a, pm) else none
  | _, _ => none

/-- The id the store gives a new order document: one no stored order has. -/
def nextOrderId (os : List Order) : Id :=
  (os.map (fun o => o.id)).foldr max 0 + 1

/-- The handler `createOrder` of `src/controllers/orderController.js`. -/
def createOrder (st : Store) (user : User) (body : Body) : Store × Response Order :=
  match body.items with
  | .missing => (st, .failure .itemsRequired)
  | .notArray => (st, .failure .itemsRequired)
  | .array items =>
    if items.length = 0 then (st, .failure .itemsRequired)
    else
      match body.shippingAddress with
      | .missing => (st, .failure .addressInvalid)
      | .notObject => (st, .failure .addressInvalid)
      | .object _ =>
        if !truthyStr body.paymentMethod then (st, .failure .paymentRequired)
        else
          match validateItems st.products items with
          | some err => (st, .failure err)
          | none =>
            let callbacks := items.map (orderCallback st.products)
            let st1 : Store := { st with products := applyWrites st.products callbacks }
            match collectLines callbacks with
            | none => (st1, .thrown)
            | some updatedItems =>
              let totalAmount := accumulateTotal callbacks
              match orderSchemaValid updatedItems body.shippingAddress body.paymentMethod with
              | none => (st1, .thrown)
              | some (address, paymentMethod) =>
                let order : Order :=
                  { id := nextOrderId st.orders
                    user := user.id
                    items := updatedItems
                    totalAmount := totalAmount
                    shippingAddress := address
                    paymentMethod := paymentMethod
                    status := .pending }
                ({ st1 with orders := st1.orders ++ [order] }, .success 201 order)

/-- The lines of an order with `items.product` populated with the name and price of the
referenced product (`null` when it no longer exists). -/
def populate (ps : List Product) (o : Order) : List (Option (String × ℚ)) :=
  o.items.map (fun l => (findProduct ps l.product).map (fun p => (p.name, p.price)))

/-- The handler `getOrders`. -/
def getOrders (st : Store) (user : User) :
    Store × Response (List (Order × List (Option (String × ℚ)))) :=
  let orders := st.orders.filter (fun o => o.user == user.id)
  if orders.length = 0 then (st, .failure .noOrders)
  else (st, .success 200 (orders.map (fun o => (o, populate st.products o))))

/-- The handler `getOrderById`. -/
def getOrderById (st : Store) (user : User) (orderId : Id) :
    Store × Response (Order × List (Option (String × ℚ))) :=
  match findOrder st.orders orderId with
  | none => (st, .failure .orderNotFound)
  | some order =>
    if order.user ≠ user.id ∧ user.role ≠ "admin" then (st, .failure .notAuthorizedView)
    else (st, .success 200 (order, populate st.products order))

/-- One callback of the `Promise.all` of `cancelOrder` (lines 163-167), run on the
product documents `ps` read when the `Promise.all` began. -/
def restoreCallback (ps : List Product) (item : OrderItem) : Callback :=
  match findProduct ps item.product with
  | none => .threw
  | some product =>
    let stock := product.stock + item.quantity
    if stockValid stock then .saved item.product stock item 0 else .threw

/-- The write `order.save()` sends after `order.status` was assigned. -/
def setStatus : List Order → Id → OrderStatus → List Order
  | [], _, _ => []
  | o :: os, id, s => if o.id = id then { o with status := s } :: os else o :: setStatus os id s

/-- The handler `cancelOrder`. -/
def cancelOrder (st : Store) (user : User) (orderId : Id) : Store × Response Order :=
  match findOrder st.orders orderId with
  | none => (st, .failure .orderNotFound)
  | some order =>
    if order.user ≠ user.id ∧ user.role ≠ "admin" then (st, .failure .notAuthorizedCancel)
    else if order.status ≠ .pending then (st, .failure .notPending)
    else
      let callbacks := order.items.map (restoreCallback st.products)
      let st1 : Store := { st with products := applyWrites st.products callbacks }
      match collectLines callbacks with
      | none => (st1, .thrown)
      | some _ =>
        let cancelled : Order := { order with status := .cancelled }
        ({ st1 with orders := setStatus st1.orders order.id .cancelled }, .success 200 cancelled)

/-- The errors the chains of `orderValidator` record on the request. -/
inductive ValidationError where
  /-- Message "Items should be an array containing at least one product" -/
  | itemsNotArray
  /-- Message "Product ID is required for item at index ..." -/
  | productIdRequired (index : Nat)
  /-- Message "Quantity must be greater than 0 for item at index ..." -/
  | quantityNotPositive (index : Nat)
  /-- The custom validator raised a `TypeError` on a value it cannot traverse. -/
  | customThrew
  /-- Message "Shipping address is required" -/
  | addressRequired
  /-- Message "Shipping address should be an object" -/
  | addressNotObject
  /-- Message "Shipping address must contain ..." -/
  | addressFieldMissing (field : String)
  /-- Message "Payment method is required" -/
  | paymentRequired
  /-- Message "Payment method must be one of: creditCard, debitCard, or paypal" -/
  | paymentNotListed
deriving DecidableEq

/-- The custom validator of the `items` chain (`items.forEach`): the error thrown at the
first item, from `index` on, that lacks a product id or has a quantity that is falsy or
`<= 0`. -/
def itemsCustom : List ItemReq → Nat → Option ValidationError
  | [], _ => none
  | item :: rest, index =>
    if item.product.isNone then some (.productIdRequired index)
    else if !truthyNum item.quantity || (match item.quantity with
        | some q => decide (q ≤ 0)
        | none => false) then some (.quantityNotPositive index)
    else itemsCustom rest (index + 1)

/-- The custom validator of the `shippingAddress` chain: the first required field that
is falsy. -/
def addressCustom (a : Address) : Option ValidationError :=
  if !truthyStr a.street then some (.addressFieldMissing "street")
  else if !truthyStr a.city then some (.addressFieldMissing "city")
  else if !truthyStr a.state then some (.addressFieldMissing "state")
  else if !truthyStr a.zipCode then some (.addressFieldMissing "zipCode")
  else if !truthyStr a.country then some (.addressFieldMissing "country")
  else none

/-- The errors the three chains of `orderValidator` (`src/utils/validators.js`) record
for a body. -/
def orderValidator (body : Body) : List ValidationError :=
  (match body.items with
    | .missing => [.itemsNotArray, .customThrew]
    | .notArray => [.itemsNotArray, .customThrew]
    | .array items =>
      (if items.length = 0 then [ValidationError.itemsNotArray] else [])
        ++ (itemsCustom items 0).toList)
  ++ (match body.shippingAddress with
    | .missing => [.addressRequired, .addressNotObject, .customThrew]
    | .notObject => [.addressNotObject] ++ (addressCustom ⟨none, none, none, none, none⟩).toList
    | .object a => (addressCustom a).toList)
  ++ (match body.paymentMethod with
    | none => [.paymentRequired, .paymentNotListed]
    | some pm =>
      (if pm.trim = "" then [ValidationError.paymentRequired] else [])
        ++ (if pm.trim = "creditCard" ∨ pm.trim = "debitCard" ∨ pm.trim = "paypal" then []
            else [ValidationError.paymentNotListed]))

/-- The body after the sanitizers of `orderValidator` ran: `trim()` rewrites
`paymentMethod` (an absent one becomes the empty string). -/
def sanitizeBody (body : Body) : Body :=
  { body with paymentMethod := some ((body.paymentMethod.getD "").trim) }

/-- The route `POST /orders` behind `protect` (`src/routes/order.js`, line 79):
`router.route("/").post(orderValidator, createOrder)`.  The validation chains run, record
their errors on the request and pass control on; the route mounts no `validateRequest`
after them, so the record is never read and `createOrder` runs on the sanitized body. -/
def postOrders (st : Store) (user : User) (body : Body) : Store × Response Order :=
  createOrder st user (sanitizeBody body)

/-- A call of one of the two handlers that write to the store. -/
inductive Op where
  | create (user : User) (body : Body)
  | cancel (user : User) (orderId : Id)

/-- The store a call leaves behind. -/
def step (st : Store) : Op → Store
  | .create user body => (createOrder st user body).1
  | .cancel user orderId => (cancelOrder st user orderId).1

/-- The store after a sequence of calls, each running to completion before the next. -/
def run (st : Store) (ops : List Op) : Store :=
  ops.foldl step st

/-- A request body without the fields the order handler never reads: the `price` of
every item and the `totalAmount`, `user` and `status` of the body. -/
def stripClientFields (body : Body) : Body :=
  { items := match body.items with
      | .missing => .missing
      | .notArray => .notArray
      | .array items =>
        .array (items.map (fun item => { product := item.product, quantity := item.quantity }))
    shippingAddress := body.shippingAddress
    paymentMethod := body.paymentMethod }

/-- A call of one of the four order handlers. -/
inductive Call where
  | create (user : User) (body : Body)
  | list (user : User)
  | get (user : User) (orderId : Id)
  | cancel (user : User) (orderId : Id)

/-- The store a call of an order handler leaves behind. -/
def perform (st : Store) : Call → Store
  | .create user body => (createOrder st user body).1
  | .list user => (getOrders st user).1
  | .get user orderId => (getOrderById st user orderId).1
  | .cancel user orderId => (cancelOrder st user orderId).1

/-- The store after a sequence of calls of the order handlers, each running to completion
before the next. -/
def performAll (st : Store) (calls : List Call) : Store :=
  calls.foldl perform st

/-! ## Response envelopes (`src/app.js`) -/

/-- The JSON body of a response: `{success, message?, data?, error?}`; `hasData` tells
whether a `data` field is present. -/
structure Envelope where
  success : Bool
  message : Option String := none
  hasData : Bool := false
  error : Option String := none
deriving DecidableEq

/-- The catch-all handler `app.all("*", ...)` of `src/app.js` (lines 91-96), which answers
every request no route matched: the status and the JSON body it sends. -/
def notFoundHandler (originalUrl : String) : Nat × Envelope :=
  (404, { success := false, message := some ("Can't find " ++ originalUrl ++ " on this server!") })

/-- Modelled from the spec: the error middleware (`src/middleware/error.js` is not among
the sources), which serializes an `ErrorResponse(message, statusCode)` passed to `next` as
the status `statusCode` and the body `{success: false, error: message}`. -/
def errorHandler (message : String) (statusCode : Nat) : Nat × Envelope :=
  (statusCode, { success := false, error := some message })

/-! ## Product ratings (`addProductRating` of `src/controllers/productController.js`) -/

/-- One entry of a product's `ratings` array. -/
structure Rating where
  user : Id
  rating : ℚ
  review : Option String := none
deriving DecidableEq

/-- A product document as `addProductRating` uses it.  `ratings` is `none` when the
document has no `ratings` property, which is the case of every document read through the
product schema of `src/models/schemas/productSchema.js` (it declares neither `ratings`
nor `averageRating`); it is `some` for a document that carries the array. -/
structure RatedProduct where
  id : Id
  ratings : Option (List Rating)
  averageRating : Option ℚ := none
deriving DecidableEq

/-- The JSON body of a rating request. -/
structure RatingBody where
  rating : Option ℚ
  review : Option String := none
deriving DecidableEq

/-- The `data` of the 201 answer of `addProductRating`. -/
structure RatingData where
  productId : Id
  ratings : List Rating
  averageRating : ℚ
deriving DecidableEq

/-- The messages the validation loop of `createProduct` pushes on `errors`, each with the
index of the entry. -/
inductive EntryError where
  /-- Message "Product at index ... is missing required fields: 'name', 'price', or
  'stock'." -/
  | missingFields (index : Nat)
  /-- Message "Product at index ... has an invalid price (must be > 0)." -/
  | invalidPrice (index : Nat)
  /-- Message "Product at index ... has an invalid stock value (must be ≥ 0)." -/
  | invalidStock (index : Nat)
  /-- Message "Product at index ... has a duplicate name within the request body." -/
  | duplicateName (index : Nat)
deriving DecidableEq

/-- The errors the product handlers pass to `next` as `new ErrorResponse(message, code)`. -/
inductive ProductError where
  /-- Message "Rating must be a number between 1 and 5" -/
  | ratingInvalid
  /-- Message "Review must be at least 5 characters long" -/
  | reviewTooShort
  /-- Message "Product not found with id of ..." -/
  | productNotFound (id : Id)
  /-- Message "You have already rated this product" -/
  | alreadyRated
  /-- Message "Invalid input: 'products' must be an object or an array of product
  objects." -/
  | productsInvalid
  /-- Message "Validation errors: ..." followed by the messages of the entries. -/
  | validationErrors (errors : List EntryError)
  /-- Message "Duplicate product names found in the database: ... Please use unique
  names." -/
  | duplicateNames (names : List String)
  /-- Message "Product not found" -/
  | productMissing
  /-- Message "Stock cannot be negative" -/
  | stockNegative
deriving DecidableEq

/-- The status code given to `ErrorResponse` at each `next(...)` call of the product
handlers. -/
def ProductError.statusCode : ProductError → Nat
  | .ratingInvalid => 400
  | .reviewTooShort => 400
  | .productNotFound _ => 404
  | .alreadyRated => 400
  | .productsInvalid => 400
  | .validationErrors _ => 400
  | .duplicateNames _ => 400
  | .productMissing => 404
  | .stockNegative => 400

/-- What a product handler does with the response. -/
inductive ProductResponse (α : Type) where
  | success (status : Nat) (data : α)
  | failure (err : ProductError)
  | thrown
deriving DecidableEq

/-- The HTTP status fixed by the product handler; for `thrown` it is left to the error
middleware. -/
def ProductResponse.status? {α : Type} : ProductResponse α → Option Nat
  | .success s _ => some s
  | .failure e => some e.statusCode
  | .thrown => none

/-- Lookup `Product.findById` on the documents the rating handler works with. -/
def findRated (ps : List RatedProduct) (id : Id) : Option RatedProduct :=
  ps.find? (fun p => p.id == id)

/-- The write `product.save()` sends after the rating was pushed and the average
assigned. -/
def saveRated : List RatedProduct → RatedProduct → List RatedProduct
  | [], _ => []
  | p :: ps, q => if p.id = q.id then q :: ps else p :: saveRated ps q

/-- The value of `totalRatings`: `product.ratings.reduce((sum, item) => sum + item.rating,
0)`. -/
def totalRatings (ratings : List Rating) : ℚ :=
  ratings.foldl (fun sum item => sum + item.rating) 0

/-- The handler `addProductRating`.  An exception raised in the `try` block is passed to
`next` by the `catch` clause (`thrown`). -/
def addProductRating (ps : List RatedProduct) (user : User) (productId : Id)
    (body : RatingBody) : List RatedProduct × ProductResponse RatingData :=
  match body.rating with
  | none => (ps, .failure .ratingInvalid)
  | some rating =>
    if rating = 0 ∨ rating < 1 ∨ rating > 5 then (ps, .failure .ratingInvalid)
    else if truthyStr body.review ∧ (body.review.getD "").trim.length < 5 then
      (ps, .failure .reviewTooShort)
    else
      match findRated ps productId with
      | none => (ps, .failure (.productNotFound productId))
      | some product =>
        match product.ratings with
        | none => (ps, .thrown)
        | some ratings =>
          if ratings.any (fun r => r.user == user.id) then (ps, .failure .alreadyRated)
          else
            let ratings1 := ratings ++ [{ user := user.id, rating := rating, review := body.review }]
            let averageRating := totalRatings ratings1 / ratings1.length
            let saved : RatedProduct :=
              { product with ratings := some ratings1, averageRating := some averageRating }
            (saveRated ps saved,
              .success 201
                { productId := product.id, ratings := ratings1, averageRating := averageRating })

/-! ## Product creation (`createProduct` of `src/controllers/productController.js`) -/

/-- One product object of `req.body.products`; a field that is absent is `none`. -/
structure ProductEntry where
  name : Option String
  price : Option ℚ
  stock : Option ℚ
  description : Option String := none
  category : Option String := none
deriving DecidableEq

/-- The value of `req.body.products`: absent (or falsy), a truthy value that is neither an
array nor an object, a single product object, or an array of product objects. -/
inductive ProductsField where
  | missing
  | notObject
  | single (entry : ProductEntry)
  | array (entries : List ProductEntry)
deriving DecidableEq

/-- The validation loop of `createProduct` (lines 28-57), from the entry of index `index`
on, `uniqueNames` holding the names added so far: the contents of `errors` after the
loop. -/
def validateEntries : List ProductEntry → Nat → List String → List EntryError
  | [], _, _ => []
  | product :: rest, index, uniqueNames =>
    if !truthyStr product.name || !truthyNum product.price || !truthyNum product.stock then
      .missingFields index :: validateEntries rest (index + 1) uniqueNames
    else
      match product.name, product.price, product.stock with
      | some name, some price, some stock =>
        (if price ≤ 0 then [EntryError.invalidPrice index] else [])
          ++ (if stock < 0 then [EntryError.invalidStock index] else [])
          ++ (if name ∈ uniqueNames then [EntryError.duplicateName index] else [])
          ++ validateEntries rest (index + 1)
              (if name ∈ uniqueNames then uniqueNames else name :: uniqueNames)
      | _, _, _ => .missingFields index :: validateEntries rest (index + 1) uniqueNames

/-- The categories the product schema lists. -/
def productCategories : List String :=
  ["electronics", "clothing", "books", "home", "other", "accessories", "storage", "furniture"]

/-- The document `insertMany` builds from an entry when it passes the validators of the
product schema (`src/models/schemas/productSchema.js`): the name, trimmed, is present and
at most 100 characters long, the description is present and at most 1000 characters long,
price and stock are at least 0 and the category is one of the listed values. -/
def entryDocument (id createdBy : Id) (product : ProductEntry) : Option Product :=
  match product.name, product.price, product.stock, product.description, product.category with
  | some name, some price, some stock, some description, some category =>
    if name.trim ≠ "" ∧ name.trim.length ≤ 100 ∧ description ≠ "" ∧ description.length ≤ 1000
        ∧ 0 ≤ price ∧ 0 ≤ stock ∧ category ∈ productCategories then
      some { id := id, name := name.trim, price := price, stock := stock,
             description := description, category := category, createdBy := createdBy }
    else none
  | _, _, _, _, _ => none

/-- The documents of `insertMany` for the entries, with ids counted up from `id`; `none`
when a document fails the validators of the schema (nothing is inserted then). -/
def entryDocuments (createdBy : Id) : List ProductEntry → Id → Option (List Product)
  | [], _ => some []
  | product :: rest, id =>
    match entryDocument id createdBy product, entryDocuments createdBy rest (id + 1) with
    | some doc, some docs => some (doc :: docs)
    | _, _ => none

/-- The id the store gives the first of the new product documents: one no stored product
has. -/
def nextProductId (ps : List Product) : Id :=
  (ps.map (fun p => p.id)).foldr max 0 + 1

/-- The names of `productArray.map((p) => p.name)` as the query
`{ name: { $in: ... } }` compares them with the stored names (the `trim` setter of the
schema is applied to them). -/
def queryNames (entries : List ProductEntry) : List String :=
  entries.filterMap (fun product => product.name.map String.trim)

/-- The handler `createProduct` from the normalized `productArray` on (lines 24-93). -/
def createProductArray (st : Store) (user : User) (productArray : List ProductEntry) :
    Store × ProductResponse (List Product) :=
  let errors := validateEntries productArray 0 []
  if errors.length > 0 then (st, .failure (.validationErrors errors))
  else
    let existingProducts := st.products.filter (fun p => p.name ∈ queryNames productArray)
    if existingProducts.length > 0 then
      (st, .failure (.duplicateNames (existingProducts.map (fun p => p.name))))
    else
      match entryDocuments user.id productArray (nextProductId st.products) with
      | none => (st, .thrown)
      | some createdProducts =>
        ({ st with products := st.products ++ createdProducts }, .success 201 createdProducts)

/-- The handler `createProduct`. -/
def createProduct (st : Store) (user : User) (products : ProductsField) :
    Store × ProductResponse (List Product) :=
  match products with
  | .missing => (st, .failure .productsInvalid)
  | .notObject => (st, .failure .productsInvalid)
  | .single entry => createProductArray st user [entry]
  | .array entries => createProductArray st user entries

/-- The stock of the product with the given id (0 when there is none); used to state
properties only. -/
def stockOf (ps : List Product) (id : Id) : ℚ :=
  match findProduct ps id with
  | some p => p.stock
  | none => 0

/-- The total quantity a list of order lines records for a product; used to state
properties only. -/
def orderedQuantity (lines : List OrderItem) (id : Id) : ℚ :=
  ((lines.filter (fun l => l.product == id)).map (fun l => l.quantity)).sum

/-! ## Notions used in the statements -/

/-- An item passes every check of the validation loop against the products `ps`. -/
def ItemPasses (ps : List Product) (item : ItemReq) : Prop :=
  ∃ pid q product, item.product = some pid ∧ item.quantity = some q ∧ q ≠ 0 ∧
    findProduct ps pid = some product ∧ q ≤ product.stock

/-- An item passes the checks that precede the stock comparison: it has a product id and
a truthy quantity, and the product exists. -/
def ItemResolves (ps : List Product) (item : ItemReq) : Prop :=
  ∃ pid q product, item.product = some pid ∧ item.quantity = some q ∧ q ≠ 0 ∧
    findProduct ps pid = some product

/-- Every product of the collection has a non-negative stock. -/
def StockNonneg (ps : List Product) : Prop := ∀ p ∈ ps, 0 ≤ p.stock

/-- The value of the last save addressed to `id`, if there is one. -/
def lastSave : List (Id × ℚ) → Id → Option ℚ
  | [], _ => none
  | w :: ws, id =>
    match lastSave ws id with
    | some v => some v
    | none => if w.1 = id then some w.2 else none

/-- How a stored order may differ from what it was: not at all, or by having gone from
`pending` to `cancelled`. -/
def StatusStep (o o1 : Order) : Prop :=
  o1 = o ∨ (o.status = .pending ∧ o1 = { o with status := .cancelled })

/-! ## Sample data, taken from `src/tests/helpers.js` and `src/tests/order.test.js` -/

/-- The product of `createTestProduct`. -/
def testProduct : Product :=
  { id := 1, name := "Test Product", price := 100, stock := 10,
    description := "A product for testing", category := "electronics", createdBy := 1 }

/-- The store the order tests start from. -/
def testStore : Store := { products := [testProduct], orders := [] }

/-- The requester of the order tests. -/
def testUser : User := { id := 1, role := "user" }

/-- Another user without the admin role. -/
def otherUser : User := { id := 2, role := "user" }

/-- An administrator who owns no order. -/
def adminUser : User := { id := 3, role := "admin" }

/-- The shipping address of the order tests. -/
def testAddress : Address :=
  { street := some "123 Test St", city := some "Test City", state := some "Test State",
    zipCode := some "12345", country := some "Test Country" }

/-- A request body with the given items and the address and payment method of the tests. -/
def testBody (items : List ItemReq) : Body :=
  { items := .array items, shippingAddress := .object testAddress,
    paymentMethod := some "creditCard" }

/-- The order `createOrder` stores for a request of the test user with the given lines. -/
def testOrder (lines : List OrderItem) (total : ℚ) : Order :=
  { id := 1, user := 1, items := lines, totalAmount := total, shippingAddress := testAddress,
    paymentMethod := "creditCard", status := .pending }

/-- The body of the order test "should create new order": 4 units of the test product,
with a client-supplied price of 19.99 and total of 79.96. -/
def testRequest : Body :=
  { testBody [{ product := some 1, quantity := some 4, price := some (1999 / 100) }] with
    totalAmount := some (7996 / 100), paymentMethod := some "debitCard" }

/-- The order stored for `testRequest`. -/
def createdOrder : Order :=
  { testOrder [{ product := 1, quantity := 4, price := 100 }] 400 with
    paymentMethod := "debitCard" }

/-- The store after `testRequest` was served. -/
def storeAfterCreate : Store :=
  { products := [{ testProduct with stock := 6 }], orders := [createdOrder] }

/-- The order stored for a request of the test user with two lines of 3 units of the
test product. -/
def twoLineOrder : Order :=
  testOrder [{ product := 1, quantity := 3, price := 100 },
             { product := 1, quantity := 3, price := 100 }] 600

/-- A store holding the pending two-line order and the test product with the given
stock. -/
def twoLineStore (stock : ℚ) : Store :=
  { products := [{ testProduct with stock := stock }], orders := [twoLineOrder] }

/-- The store after the order of `testRequest` was cancelled. -/
def storeAfterCancel : Store :=
  { products := [testProduct], orders := [{ createdOrder with status := .cancelled }] }

/-- The body of `testRequest` with another client-supplied price and total, and with
`user` and `status` fields added. -/
def forgedRequest : Body :=
  { testBody [{ product := some 1, quantity := some 4, price := some (1 / 100) }] with
    totalAmount := some 0, paymentMethod := some "debitCard", user := some 99,
    status := some "delivered" }

/-- A request for 2 units of the test product whose shipping address has no street. -/
def noStreetRequest : Body :=
  { items := .array [{ product := some 1, quantity := some 2 }],
    shippingAddress := .object { testAddress with street := none },
    paymentMethod := some "creditCard" }

/-- A request for 2 units of the test product with a payment method that is not listed. -/
def bitcoinRequest : Body :=
  { testBody [{ product := some 1, quantity := some 2 }] with paymentMethod := some "bitcoin" }

/-- A product document carrying one rating, of 4, by user 2. -/
def ratedProduct : RatedProduct :=
  { id := 1, ratings := some [{ user := 2, rating := 4, review := some "Works well" }],
    averageRating := some 4 }

/-- The ratings of `ratedProduct` after the test user rated it 5. -/
def ratingsAfter : List Rating :=
  [{ user := 2, rating := 4, review := some "Works well" }, { user := 1, rating := 5 }]

/-- The first product of the test "should create multiple products (admin only)" of
`src/tests/product.test.js`. -/
def smartphone : ProductEntry :=
  { name := some "Smartphone", price := some (49999 / 100), stock := some 50,
    description := some "A high-quality smartphone with a 6.5-inch display and 128GB storage.",
    category := some "electronics" }

/-! ## Product update and deletion (`src/controllers/productController.js`) -/

/-- The update validators `findByIdAndUpdate` runs with `runValidators: true` on the paths
the body sets (`src/models/schemas/productSchema.js`): a name, trimmed, is non-empty and at
most 100 characters long, a description is non-empty and at most 1000 characters long, a
price and a stock are at least 0 and a category is one of the listed values. -/
def updateValid (body : ProductEntry) : Bool :=
  (match body.name with
    | some name => decide (name.trim ≠ "" ∧ name.trim.length ≤ 100)
    | none => true)
  && (match body.description with
    | some description => decide (description ≠ "" ∧ description.length ≤ 1000)
    | none => true)
  && (match body.price with
    | some price => decide (0 ≤ price)
    | none => true)
  && (match body.stock with
    | some stock => decide (0 ≤ stock)
    | none => true)
  && (match body.category with
    | some category => decide (category ∈ productCategories)
    | none => true)

/-- The product document after the fields of the body were set on it. -/
def applyProductUpdate (product : Product) (body : ProductEntry) : Product :=
  { product with
    name := (body.name.map String.trim).getD product.name
    price := body.price.getD product.price
    stock := body.stock.getD product.stock
    description := body.description.getD product.description
    category := body.category.getD product.category }

/-- The stored document with the id of `product` replaced by `product`. -/
def replaceProduct : List Product → Product → List Product
  | [], _ => []
  | p :: ps, product =>
    if p.id = product.id then product :: ps else p :: replaceProduct ps product

/-- The handler `updateProductById`. -/
def updateProductById (st : Store) (productId : Id) (body : ProductEntry) :
    Store × ProductResponse Product :=
  match findProduct st.products productId with
  | none => (st, .failure .productMissing)
  | some product =>
    if (match body.stock with
        | some stock => decide (stock < 0)
        | none => false) then (st, .failure .stockNegative)
    else if !updateValid body then (st, .thrown)
    else
      let updatedProduct := applyProductUpdate product body
      ({ st with products := replaceProduct st.products updatedProduct },
        .success 200 updatedProduct)

/-- The handler `deleteProductById`. -/
def deleteProductById (st : Store) (productId : Id) : Store × ProductResponse Unit :=
  match findProduct st.products productId with
  | none => (st, .failure .productMissing)
  | some _ =>
    ({ st with products := st.products.eraseP (fun p => p.id == productId) }, .success 200 ())

/-! ## Authentication and authorization (`src/middleware/auth.js`,
`src/controllers/authController.js`, `src/routes`) -/

/-- User document, with the fields the handlers read and write. -/
structure UserDoc where
  id : Id
  name : String
  email : String
  role : String
deriving DecidableEq

/-- The principal a user document stands for. -/
def UserDoc.principal (u : UserDoc) : User := { id := u.id, role := u.role }

/-- The errors the authentication middleware and `logout` pass to `next`. -/
inductive AuthError where
  /-- Message "Authentication token is missing. Please provide a valid token to access
  this resource." -/
  | tokenMissing
  /-- Message "This token is invalid as the user has logged out." -/
  | tokenBlacklisted
  /-- Message "User associated with this token not found." -/
  | userNotFound
  /-- Message "Token verification failed. Please provide a valid token." -/
  | verificationFailed
  /-- Message "Access denied. Your role (...) is not authorized to access this
  resource." -/
  | accessDenied (role : String)
  /-- Message "Token is required to logout" -/
  | logoutTokenRequired
deriving DecidableEq

/-- The status code given to `ErrorResponse` at each `next(...)` call of the
authentication code. -/
def AuthError.statusCode : AuthError → Nat
  | .tokenMissing => 401
  | .tokenBlacklisted => 401
  | .userNotFound => 401
  | .verificationFailed => 401
  | .accessDenied _ => 403
  | .logoutTokenRequired => 400

/-- What a middleware, or a chain of middleware ending in a handler, does: it passes an
error to `next`, so that nothing downstream runs, or it passes control on with a value. -/
inductive Guard (α : Type) where
  | refused (err : AuthError)
  | passed (value : α)
deriving DecidableEq

/-- The middleware `protect`.  `token` is the value of
`req.headers.authorization?.split(" ")[1]` (`none` when it is undefined); `decode token` is
the id in the payload when `jwt.verify` accepts the token and `none` when it throws;
`tokenBlacklist` is the module variable of `authController.js`.  On success the user
document becomes `req.user`. -/
def protect (decode : String → Option Id) (users : List UserDoc) (tokenBlacklist : List String)
    (token : Option String) : Guard UserDoc :=
  match token with
  | none => .refused .tokenMissing
  | some t =>
    if t = "" then .refused .tokenMissing
    else if t ∈ tokenBlacklist then .refused .tokenBlacklisted
    else
      match decode t with
      | none => .refused .verificationFailed
      | some id =>
        match users.find? (fun u => u.id == id) with
        | none => .refused .userNotFound
        | some user => .passed user

/-- The middleware `authorize(...roles)` applied to the authenticated user. -/
def authorize (roles : List String) (user : UserDoc) : Guard Unit :=
  if ¬ user.role ∈ roles then .refused (.accessDenied user.role) else .passed ()

/-- A chain `protect, authorize(...roles), handler`: the handler runs on `req.user` only
when both middleware passed control on. -/
def protectedFor {α : Type} (roles : List String) (decode : String → Option Id)
    (users : List UserDoc) (tokenBlacklist : List String) (token : Option String)
    (handler : UserDoc → α) : Guard α :=
  match protect decode users tokenBlacklist token with
  | .refused err => .refused err
  | .passed user =>
    match authorize roles user with
    | .refused err => .refused err
    | .passed _ => .passed (handler user)

/-- A chain `protect, handler`. -/
def protectedRoute {α : Type} (decode : String → Option Id) (users : List UserDoc)
    (tokenBlacklist : List String) (token : Option String) (handler : UserDoc → α) : Guard α :=
  match protect decode users tokenBlacklist token with
  | .refused err => .refused err
  | .passed user => .passed (handler user)

/-- The route `POST /products`: `protect, authorize("admin"), productValidator,
createProduct`. -/
def postProducts (decode : String → Option Id) (users : List UserDoc)
    (tokenBlacklist : List String) (st : Store) (token : Option String)
    (products : ProductsField) : Guard (Store × ProductResponse (List Product)) :=
  protectedFor ["admin"] decode users tokenBlacklist token
    (fun user => createProduct st user.principal products)

/-- The route `PUT /products/:id`: `protect, authorize("admin"), productValidator,
updateProductById`. -/
def putProduct (decode : String → Option Id) (users : List UserDoc)
    (tokenBlacklist : List String) (st : Store) (token : Option String) (productId : Id)
    (body : ProductEntry) : Guard (Store × ProductResponse Product) :=
  protectedFor ["admin"] decode users tokenBlacklist token
    (fun _ => updateProductById st productId body)

/-- The route `DELETE /products/:id`: `protect, authorize("admin"), deleteProductById`. -/
def deleteProduct (decode : String → Option Id) (users : List UserDoc)
    (tokenBlacklist : List String) (st : Store) (token : Option String) (productId : Id) :
    Guard (Store × ProductResponse Unit) :=
  protectedFor ["admin"] decode users tokenBlacklist token
    (fun _ => deleteProductById st productId)

/-- How the handler `logout` ends: with an error passed to `next`, or with an exception
that `asyncHandler` forwards to the error middleware. -/
inductive LogoutOutcome where
  | failure (err : AuthError)
  | thrown
deriving DecidableEq

/-- The handler `logout`: the blacklist it leaves and how it ends.  After the push it
calls `sendTokenResponse(user, ...)`, and no variable `user` is bound in the handler or in
the module, so that evaluating the argument raises a `ReferenceError`. -/
def logout (tokenBlacklist : List String) (token : Option String) :
    List String × LogoutOutcome :=
  match token with
  | none => (tokenBlacklist, .failure .logoutTokenRequired)
  | some t =>
    if t = "" then (tokenBlacklist, .failure .logoutTokenRequired)
    else (tokenBlacklist ++ [t], .thrown)

/-- A request as far as the blacklist is concerned: one to `POST /auth/logout`
(`protect, logout`), or one to any other route. -/
inductive AuthCall where
  | logout (token : Option String)
  | other (token : Option String)

/-- The blacklist a request leaves behind; only `logout` writes to it. -/
def authStep (decode : String → Option Id) (users : List UserDoc)
    (tokenBlacklist : List String) : AuthCall → List String
  | .logout token =>
    match protect decode users tokenBlacklist token with
    | .refused _ => tokenBlacklist
    | .passed _ => (logout tokenBlacklist token).1
  | .other _ => tokenBlacklist

/-- The blacklist after a sequence of requests. -/
def authRun (decode : String → Option Id) (users : List UserDoc)
    (tokenBlacklist : List String) (calls : List AuthCall) : List String :=
  calls.foldl (authStep decode users) tokenBlacklist

/-! ## User management (`src/controllers/userController.js`, `src/routes/user.js`) -/

/-- The handler `getUsers`: the status and the `data` of its answer. -/
def getUsers (users : List UserDoc) : Nat × List UserDoc :=
  (200, users)

/-- The route `GET /users` of `src/routes/user.js`: `router.get("/", getUsers)`, with no
middleware before the handler; the token of the request is not looked at. -/
def getUsersRoute (_decode : String → Option Id) (users : List UserDoc)
    (_tokenBlacklist : List String) (_token : Option String) : Guard (Nat × List UserDoc) :=
  .passed (getUsers users)

/-- The errors `updateProfileById` passes to `next`. -/
inductive UserError where
  /-- Message "Invalid field(s): ..." -/
  | invalidFields (fields : List String)
  /-- Message "Cannot update protected fields" -/
  | protectedFields
  /-- Message "User not found" -/
  | userNotFound
deriving DecidableEq

/-- The status code given to `ErrorResponse` at each `next(...)` call of
`updateProfileById`. -/
def UserError.statusCode : UserError → Nat
  | .invalidFields _ => 400
  | .protectedFields => 400
  | .userNotFound => 404

/-- What `updateProfileById` does with the response. -/
inductive UserResponse where
  | success (status : Nat) (data : UserDoc)
  | failure (err : UserError)
  | thrown
deriving DecidableEq

/-- The HTTP status fixed by `updateProfileById`; for `thrown` it is left to the error
middleware. -/
def UserResponse.status? : UserResponse → Option Nat
  | .success s _ => some s
  | .failure e => some e.statusCode
  | .thrown => none

/-- Modelled from the spec: the validators of the User schema that
`findByIdAndUpdate` runs with `runValidators: true` (`src/models/schemas/userSchema.js` is
not among the sources): a role is `user` or `admin`. -/
def userUpdateValid (body : List (String × String)) : Bool :=
  body.all (fun kv => kv.1 != "role" || kv.2 == "user" || kv.2 == "admin")

/-- The user document after `$set: req.body`, for a body whose keys are `name` or
`role`. -/
def applyUserUpdate (user : UserDoc) (body : List (String × String)) : UserDoc :=
  body.foldl (fun u kv =>
    if kv.1 = "name" then { u with name := kv.2 }
    else if kv.1 = "role" then { u with role := kv.2 }
    else u) user

/-- The stored document with the id of `user` replaced by `user`. -/
def replaceUser : List UserDoc → UserDoc → List UserDoc
  | [], _ => []
  | u :: us, user => if u.id = user.id then user :: us else u :: replaceUser us user

/-- The handler `updateProfileById`.  The body is the list of the keys of `req.body`
with their values; `caller` is `req.user`, which the handler does not read. -/
def updateProfileById (users : List UserDoc) (_caller : UserDoc) (userId : Id)
    (body : List (String × String)) : List UserDoc × UserResponse :=
  let updates := body.map Prod.fst
  let hasProtectedUpdate := updates.any (fun update => decide (update ∈ ["email", "password"]))
  let invalidFields := updates.filter (fun update => decide (¬ update ∈ ["name", "role"]))
  if invalidFields.length > 0 then (users, .failure (.invalidFields invalidFields))
  else if hasProtectedUpdate then (users, .failure .protectedFields)
  else if !userUpdateValid body then (users, .thrown)
  else
    match users.find? (fun u => u.id == userId) with
    | none => (users, .failure .userNotFound)
    | some user =>
      let updated := applyUserUpdate user body
      (replaceUser users updated, .success 200 updated)

/-! ## Inventory -/

/-- The quantity the pending orders record for a product; used to state properties
only. -/
def pendingQuantity (os : List Order) (id : Id) : ℚ :=
  ((os.filter (fun o => o.status == .pending)).map
    (fun o => orderedQuantity o.items id)).sum

/-- The stock of a product plus the quantity the pending orders record for it; used to
state properties only. -/
def inventory (st : Store) (id : Id) : ℚ :=
  stockOf st.products id + pendingQuantity st.orders id

/-! ## Sample data for the user and product routes -/

/-- The regular user of the tests. -/
def userDoc : UserDoc := { id := 1, name := "user", email := "user@test.com", role := "user" }

/-- The admin of the tests. -/
def adminDoc : UserDoc :=
  { id := 3, name := "admin", email := "admin@test.com", role := "admin" }

/-- The users of the tests. -/
def testUsers : List UserDoc := [userDoc, adminDoc]

/-- A token table standing for `jwt.verify`: the token of the regular user and the token of
the admin. -/
def testDecode (token : String) : Option Id :=
  if token = "user-token" then some 1 else if token = "admin-token" then some 3 else none

/-- A catalog with two products, named "Laptop" and "Phone". -/
def twoProductStore : Store :=
  { products := [{ id := 1, name := "Laptop", price := 900, stock := 5,
                   description := "A laptop", category := "electronics", createdBy := 3 },
                 { id := 2, name := "Phone", price := 500, stock := 7,
                   description := "A phone", category := "electronics", createdBy := 3 }],
    orders := [] }

/-- The body of an update that gives a product the name "Laptop", all fields supplied. -/
def renameToLaptop : ProductEntry :=
  { name := some "Laptop", price := some 500, stock := some 7,
    description := some "A phone", category := some "electronics" }

/-! ## Auxiliary facts about the validation loop and the callbacks -/

theorem validateItems_cons_of_passes {ps : List Product} {item : ItemReq}
    (h : ItemPasses ps item) (rest : List ItemReq) :
    validateItems ps (item :: rest) = validateItems ps rest := by
  obtain ⟨pid, q, product, hp, hq, hq0, hf, hle⟩ := h
  simp [validateItems, hp, hq, hf, truthyNum, hq0, not_lt.mpr hle]

theorem validateItems_append_of_passes {ps : List Product} {pre : List ItemReq}
    (h : ∀ it ∈ pre, ItemPasses ps it) (rest : List ItemReq) :
    validateItems ps (pre ++ rest) = validateItems ps rest := by
  induction pre with
  | nil => rfl
  | cons it pre ih =>
    rw [List.cons_append, validateItems_cons_of_passes (h it (List.mem_cons_self _ _))]
    exact ih (fun x hx => h x (List.mem_cons_of_mem _ hx))

theorem validateItems_none_iff {ps : List Product} {items : List ItemReq} :
    validateItems ps items = none ↔ ∀ it ∈ items, ItemPasses ps it := by
  induction items with
  | nil => simp [validateItems]
  | cons it rest ih =>
    constructor
    · intro h
      have hit : ItemPasses ps it := by
        rcases hp : it.product with _ | pid
        · simp [validateItems, hp] at h
        rcases hq : it.quantity with _ | q
        · simp [validateItems, hp, hq, truthyNum] at h
        by_cases hq0 : q = 0
        · simp [validateItems, hp, hq, truthyNum, hq0] at h
        rcases hf : findProduct ps pid with _ | product
        · simp [validateItems, hp, hq, truthyNum, hq0, hf] at h
        by_cases hlt : product.stock < q
        · simp [validateItems, hp, hq, truthyNum, hq0, hf, hlt] at h
        exact ⟨pid, q, product, hp, hq, hq0, hf, not_lt.mp hlt⟩
      rw [validateItems_cons_of_passes hit] at h
      intro x hx
      rcases List.mem_cons.mp hx with rfl | hx
      · exact hit
      · exact ih.mp h x hx
    · intro h
      rw [validateItems_cons_of_passes (h it (List.mem_cons_self _ _))]
      exact ih.mpr (fun x hx => h x (List.mem_cons_of_mem _ hx))

theorem orderCallback_of_passes {ps : List Product} {item : ItemReq} {pid : Id} {q : ℚ}
    {product : Product} (hp : item.product = some pid) (hq : item.quantity = some q)
    (hf : findProduct ps pid = some product) (hle : q ≤ product.stock) :
    orderCallback ps item =
      .saved pid (product.stock - q) { product := pid, quantity := q, price := product.price }
        (product.price * q) := by
  simp [orderCallback, hp, hq, hf, stockValid, hle]

theorem createOrder_success_inv {st st1 : Store} {user : User} {body : Body} {s : Nat}
    {order : Order} (h : createOrder st user body = (st1, .success s order)) :
    ∃ items, body.items = .array items ∧ validateItems st.products items = none ∧
      collectLines (items.map (orderCallback st.products)) = some order.items ∧
      order.totalAmount = accumulateTotal (items.map (orderCallback st.products)) ∧
      (∃ r, orderSchemaValid order.items body.shippingAddress body.paymentMethod = some r) ∧
      order.id = nextOrderId st.orders ∧ order.user = user.id ∧ order.status = .pending ∧
      s = 201 ∧
      st1 = { products := applyWrites st.products (items.map (orderCallback st.products))
              orders := st.orders ++ [order] } := by
  unfold createOrder at h
  split at h
  · simp at h
  · simp at h
  · rename_i items hitems
    refine ⟨items, hitems, ?_⟩
    split at h
    · simp at h
    split at h
    · simp at h
    · simp at h
    split at h
    · simp at h
    split at h
    · simp at h
    rename_i hv
    refine ⟨hv, ?_⟩
    simp only at h
    split at h
    · simp at h
    rename_i lines hlines
    split at h
    · simp at h
    rename_i address pm hschema
    simp only [Prod.mk.injEq, Response.success.injEq] at h
    obtain ⟨hst, hs, ho⟩ := h
    subst ho
    exact ⟨hlines, rfl, ⟨_, hschema⟩, rfl, rfl, rfl, hs.symm, hst.symm⟩

theorem accumulate_foldl_cons (c : Callback) (cs : List Callback) (acc : ℚ) :
    (c :: cs).foldl (fun acc c => match c with
      | .threw => acc
      | .saved _ _ _ t => acc + t) acc =
    cs.foldl (fun acc c => match c with
      | .threw => acc
      | .saved _ _ _ t => acc + t) (match c with
      | .threw => acc
      | .saved _ _ _ t => acc + t) := rfl

/-- The callbacks of `createOrder` on items that passed validation: none throws, the
lines carry the store's prices, the running total is the sum of the line totals and each
save writes the stock read at the start minus the line's quantity. -/
theorem order_callbacks {ps : List Product} {items : List ItemReq}
    (hv : ∀ it ∈ items, ItemPasses ps it) :
    ∃ lines, collectLines (items.map (orderCallback ps)) = some lines ∧
      (∀ acc : ℚ, (items.map (orderCallback ps)).foldl (fun acc c => match c with
          | .threw => acc
          | .saved _ _ _ t => acc + t) acc
        = acc + (lines.map (fun l => l.price * l.quantity)).sum) ∧
      (∀ l ∈ lines, ∃ p, findProduct ps l.product = some p ∧ l.price = p.price ∧
        l.quantity ≤ p.stock) ∧
      (items.map (orderCallback ps)).filterMap Callback.write?
        = lines.map (fun l => (l.product, stockOf ps l.product - l.quantity)) := by
  induction items with
  | nil => exact ⟨[], rfl, by simp, by simp, rfl⟩
  | cons it rest ih =>
    obtain ⟨lines, hl, hsum, hprice, hw⟩ := ih (fun x hx => hv x (List.mem_cons_of_mem _ hx))
    obtain ⟨pid, q, product, hp, hq, _, hf, hle⟩ := hv it (List.mem_cons_self _ _)
    have hcb := orderCallback_of_passes hp hq hf hle
    refine ⟨{ product := pid, quantity := q, price := product.price } :: lines, ?_, ?_, ?_, ?_⟩
    · simp [List.map_cons, hcb, collectLines, hl]
    · intro acc
      rw [List.map_cons, accumulate_foldl_cons, hcb]
      simp only [hsum, List.map_cons, List.sum_cons]
      ring
    · intro l hl'
      rcases List.mem_cons.mp hl' with rfl | hl'
      · exact ⟨product, hf, rfl, hle⟩
      · exact hprice l hl'
    · simp [List.map_cons, hcb, Callback.write?, hw, stockOf, hf]

theorem id_lt_nextOrderId {os : List Order} {o : Order} (h : o ∈ os) :
    o.id < nextOrderId os := by
  have key : o.id ≤ (os.map (fun o => o.id)).foldr max 0 := by
    induction os with
    | nil => cases h
    | cons x xs ih =>
      simp only [List.map_cons, List.foldr_cons]
      rcases List.mem_cons.mp h with rfl | h
      · exact le_max_left _ _
      · exact le_max_of_le_right (ih h)
  exact Nat.lt_succ_of_le key

theorem findOrder_nextOrderId (os : List Order) : findOrder os (nextOrderId os) = none := by
  simp only [findOrder, List.find?_eq_none]
  intro o ho
  have := id_lt_nextOrderId ho
  simpa using Nat.ne_of_lt this

theorem findOrder_append_new {os : List Order} {order : Order}
    (h : order.id = nextOrderId os) : findOrder (os ++ [order]) order.id = some order := by
  have hn := findOrder_nextOrderId os
  rw [← h] at hn
  simp only [findOrder] at hn ⊢
  simp [List.find?_append, hn]

theorem createOrder_of_validation_error {st : Store} {user : User} {body : Body}
    {items : List ItemReq} {a : Address} {e : ApiError} (hitems : body.items = .array items)
    (hne : items ≠ []) (haddr : body.shippingAddress = .object a)
    (hpay : truthyStr body.paymentMethod = true)
    (hv : validateItems st.products items = some e) :
    createOrder st user body = (st, .failure e) := by
  have hlen : items.length ≠ 0 := fun h => hne (List.length_eq_zero.mp h)
  simp [createOrder, hitems, hlen, haddr, hpay, hv]

theorem validateItems_insufficient {ps : List Product} {pre post : List ItemReq}
    {item : ItemReq} {pid : Id} {q : ℚ} {product : Product}
    (hpre : ∀ it ∈ pre, ItemResolves ps it) (hp : item.product = some pid)
    (hq : item.quantity = some q) (hq0 : q ≠ 0) (hf : findProduct ps pid = some product)
    (hlt : product.stock < q) :
    ∃ p, findProduct ps p.id = some p ∧
      validateItems ps (pre ++ item :: post) = some (.insufficientStock p.name p.stock) := by
  have hid : ∀ {i : Id} {p : Product}, findProduct ps i = some p → p.id = i := by
    intro i p h
    have := List.find?_some h
    simpa using this
  induction pre with
  | nil =>
    refine ⟨product, by rw [hid hf]; exact hf, ?_⟩
    simp [validateItems, hp, hq, truthyNum, hq0, hf, hlt]
  | cons it pre ih =>
    obtain ⟨pid1, q1, p1, hp1, hq1, hq10, hf1⟩ := hpre it (List.mem_cons_self _ _)
    by_cases hlt1 : p1.stock < q1
    · refine ⟨p1, by rw [hid hf1]; exact hf1, ?_⟩
      simp [validateItems, hp1, hq1, truthyNum, hq10, hf1, hlt1]
    · obtain ⟨p, hpf, hv⟩ := ih (fun x hx => hpre x (List.mem_cons_of_mem _ hx))
      refine ⟨p, hpf, ?_⟩
      rw [List.cons_append,
        validateItems_cons_of_passes ⟨pid1, q1, p1, hp1, hq1, hq10, hf1, not_lt.mp hlt1⟩]
      exact hv

theorem validateItems_error {ps : List Product} {items : List ItemReq} {e : ApiError}
    (h : validateItems ps items = some e) :
    e = .itemInvalid ∨
    (∃ pid, e = .productNotFound pid ∧
      ∃ it ∈ items, it.product = some pid ∧ findProduct ps pid = none) ∨
    ∃ name stock, e = .insufficientStock name stock := by
  induction items with
  | nil => simp [validateItems] at h
  | cons it rest ih =>
    unfold validateItems at h
    split at h
    · exact Or.inl (Option.some.inj h).symm
    · split at h
      · rename_i pid q hp hq
        split at h
        · rename_i hf
          exact Or.inr (Or.inl ⟨pid, (Option.some.inj h).symm, it, List.mem_cons_self _ _,
            hp, hf⟩)
        · split at h
          · exact Or.inr (Or.inr ⟨_, _, (Option.some.inj h).symm⟩)
          · rcases ih h with h1 | ⟨pid', h2, it', hit', h3⟩ | h4
            · exact Or.inl h1
            · exact Or.inr (Or.inl ⟨pid', h2, it', List.mem_cons_of_mem _ hit', h3⟩)
            · exact Or.inr (Or.inr h4)
      · exact Or.inl (Option.some.inj h).symm

/-- A request one of whose items has a falsy quantity (absent, or zero) is turned down by
`createOrder` with a 400 or a 404, the store staying as it was; with a 400 when every
product id of the request exists. -/
theorem createOrder_falsy_quantity {st : Store} {user : User} {body : Body}
    {items : List ItemReq} {item : ItemReq} (hitems : body.items = .array items)
    (hmem : item ∈ items) (hq : truthyNum item.quantity = false) :
    (createOrder st user body).1 = st ∧
    ((createOrder st user body).2.status? = some 400 ∨
      (createOrder st user body).2.status? = some 404) ∧
    ((∀ it ∈ items, ∀ pid, it.product = some pid → findProduct st.products pid ≠ none) →
      (createOrder st user body).2.status? = some 400) := by
  have hne : items ≠ [] := List.ne_nil_of_mem hmem
  have hlen : items.length ≠ 0 := fun h => hne (List.length_eq_zero.mp h)
  rcases haddr : body.shippingAddress with _ | _ | a
  · simp [createOrder, hitems, hlen, haddr, Response.status?, ApiError.statusCode]
  · simp [createOrder, hitems, hlen, haddr, Response.status?, ApiError.statusCode]
  by_cases hpay : truthyStr body.paymentMethod = true
  swap
  · simp [createOrder, hitems, hlen, haddr, hpay, Response.status?, ApiError.statusCode]
  rcases hv : validateItems st.products items with _ | e
  · exfalso
    obtain ⟨pid, q, product, -, hq', hq0, -, -⟩ := validateItems_none_iff.mp hv item hmem
    simp [truthyNum, hq', hq0] at hq
  · rw [createOrder_of_validation_error hitems hne haddr hpay hv]
    refine ⟨rfl, ?_, ?_⟩
    · rcases validateItems_error hv with rfl | ⟨pid, rfl, -⟩ | ⟨n, s, rfl⟩
      · exact Or.inl rfl
      · exact Or.inr rfl
      · exact Or.inl rfl
    · intro hall
      rcases validateItems_error hv with rfl | ⟨pid, rfl, it, hit, hp, hf⟩ | ⟨n, s, rfl⟩
      · rfl
      · exact absurd hf (hall it hit pid hp)
      · rfl

/-! ## Stock levels stay non-negative -/

theorem setStock_nonneg {ps : List Product} (h : StockNonneg ps) (id : Id) {v : ℚ}
    (hv : 0 ≤ v) : StockNonneg (setStock ps id v) := by
  induction ps with
  | nil => simpa [setStock] using h
  | cons p ps ih =>
    have hp : 0 ≤ p.stock := h p (List.mem_cons_self _ _)
    have hps : StockNonneg ps := fun x hx => h x (List.mem_cons_of_mem _ hx)
    unfold setStock
    split
    · intro x hx
      rcases List.mem_cons.mp hx with rfl | hx
      · exact hv
      · exact hps x hx
    · intro x hx
      rcases List.mem_cons.mp hx with rfl | hx
      · exact hp
      · exact ih hps x hx

theorem applySaves_nonneg {ws : List (Id × ℚ)} (hws : ∀ w ∈ ws, 0 ≤ w.2) {ps : List Product}
    (h : StockNonneg ps) : StockNonneg (applySaves ps ws) := by
  induction ws generalizing ps with
  | nil => exact h
  | cons w ws ih =>
    simp only [applySaves, List.foldl_cons]
    exact ih (fun x hx => hws x (List.mem_cons_of_mem _ hx))
      (setStock_nonneg h w.1 (hws w (List.mem_cons_self _ _)))

theorem orderCallback_write_nonneg (ps : List Product) (item : ItemReq) (w : Id × ℚ)
    (h : (orderCallback ps item).write? = some w) : 0 ≤ w.2 := by
  unfold orderCallback at h
  split at h
  · split at h
    · simp [Callback.write?] at h
    · dsimp only at h
      split at h
      · rename_i hvalid
        simp only [Callback.write?, Option.some.injEq] at h
        subst h
        simpa [stockValid] using hvalid
      · simp [Callback.write?] at h
  · simp [Callback.write?] at h

theorem restoreCallback_write_nonneg (ps : List Product) (item : OrderItem) (w : Id × ℚ)
    (h : (restoreCallback ps item).write? = some w) : 0 ≤ w.2 := by
  unfold restoreCallback at h
  split at h
  · simp [Callback.write?] at h
  · dsimp only at h
    split at h
    · rename_i hvalid
      simp only [Callback.write?, Option.some.injEq] at h
      subst h
      simpa [stockValid] using hvalid
    · simp [Callback.write?] at h

theorem applyWrites_map_nonneg {α : Type} (f : α → Callback)
    (hf : ∀ x w, (f x).write? = some w → 0 ≤ w.2) (xs : List α) {ps : List Product}
    (h : StockNonneg ps) : StockNonneg (applyWrites ps (xs.map f)) := by
  apply applySaves_nonneg _ h
  intro w hw
  simp only [List.mem_filterMap, List.mem_map] at hw
  obtain ⟨c, ⟨x, -, rfl⟩, hc⟩ := hw
  exact hf x w hc

theorem createOrder_products (st : Store) (user : User) (body : Body) :
    (createOrder st user body).1.products = st.products ∨
    ∃ items : List ItemReq, (createOrder st user body).1.products
      = applyWrites st.products (items.map (orderCallback st.products)) := by
  unfold createOrder
  split
  · exact Or.inl rfl
  · exact Or.inl rfl
  · rename_i items _
    split
    · exact Or.inl rfl
    split
    · exact Or.inl rfl
    · exact Or.inl rfl
    split
    · exact Or.inl rfl
    split
    · exact Or.inl rfl
    refine Or.inr ⟨items, ?_⟩
    simp only
    split
    · rfl
    split
    · rfl
    · rfl

theorem cancelOrder_products (st : Store) (user : User) (orderId : Id) :
    (cancelOrder st user orderId).1.products = st.products ∨
    ∃ items : List OrderItem, (cancelOrder st user orderId).1.products
      = applyWrites st.products (items.map (restoreCallback st.products)) := by
  unfold cancelOrder
  split
  · exact Or.inl rfl
  · rename_i order _
    split
    · exact Or.inl rfl
    split
    · exact Or.inl rfl
    refine Or.inr ⟨order.items, ?_⟩
    simp only
    split
    · rfl
    · rfl

theorem step_nonneg (st : Store) (op : Op) (h : StockNonneg st.products) :
    StockNonneg (step st op).products := by
  cases op with
  | create user body =>
    rcases createOrder_products st user body with hp | ⟨items, hp⟩
    · simpa only [step, hp] using h
    · simp only [step, hp]
      exact applyWrites_map_nonneg _ (orderCallback_write_nonneg _) items h
  | cancel user orderId =>
    rcases cancelOrder_products st user orderId with hp | ⟨items, hp⟩
    · simpa only [step, hp] using h
    · simp only [step, hp]
      exact applyWrites_map_nonneg _ (restoreCallback_write_nonneg _) items h

/-! ## The algebra of saves -/

theorem applySaves_nil (ws : List (Id × ℚ)) : applySaves [] ws = [] := by
  induction ws with
  | nil => rfl
  | cons w ws ih => simpa [applySaves, setStock] using ih

theorem applySaves_cons (ps : List Product) (w : Id × ℚ) (ws : List (Id × ℚ)) :
    applySaves ps (w :: ws) = applySaves (setStock ps w.1 w.2) ws := rfl

/-- The saves act on the first document independently of the others: it ends with the
value of the last save addressed to it, and the remaining saves act on the tail. -/
theorem applySaves_head (p : Product) (t : List Product) (ws : List (Id × ℚ)) :
    applySaves (p :: t) ws
      = { p with stock := (lastSave ws p.id).getD p.stock }
        :: applySaves t (ws.filter (fun w => decide (w.1 ≠ p.id))) := by
  induction ws generalizing p t with
  | nil => simp [applySaves, lastSave]
  | cons w ws ih =>
    rw [applySaves_cons]
    by_cases hw : p.id = w.1
    · have hset : setStock (p :: t) w.1 w.2 = { p with stock := w.2 } :: t := by
        simp [setStock, hw]
      rw [hset, ih]
      have hfilter : (w :: ws).filter (fun x => decide (x.1 ≠ p.id))
          = ws.filter (fun x => decide (x.1 ≠ p.id)) := by
        simp [List.filter_cons, hw]
      rw [hfilter]
      congr 1
      simp only [lastSave]
      cases lastSave ws p.id <;> simp [hw]
    · have hset : setStock (p :: t) w.1 w.2 = p :: setStock t w.1 w.2 := by
        simp [setStock, hw]
      rw [hset, ih]
      have hw2 : w.1 ≠ p.id := fun h => hw h.symm
      have hfilter : (w :: ws).filter (fun x => decide (x.1 ≠ p.id))
          = w :: ws.filter (fun x => decide (x.1 ≠ p.id)) := by
        simp [List.filter_cons, hw2]
      rw [hfilter, applySaves_cons]
      congr 1
      simp only [lastSave]
      cases lastSave ws p.id <;> simp [hw2]

theorem lastSave_filter_ne (ws : List (Id × ℚ)) {id other : Id} (h : id ≠ other) :
    lastSave (ws.filter (fun w => decide (w.1 ≠ other))) id = lastSave ws id := by
  induction ws with
  | nil => rfl
  | cons w ws ih =>
    by_cases hw : w.1 = other
    · have hne : w.1 ≠ id := fun h2 => h (h2.symm.trans hw)
      have hfilter : (w :: ws).filter (fun x => decide (x.1 ≠ other))
          = ws.filter (fun x => decide (x.1 ≠ other)) := by
        simp [List.filter_cons, hw]
      rw [hfilter, ih]
      simp only [lastSave]
      cases lastSave ws id <;> simp [hne]
    · have hfilter : (w :: ws).filter (fun x => decide (x.1 ≠ other))
          = w :: ws.filter (fun x => decide (x.1 ≠ other)) := by
        simp [List.filter_cons, hw]
      rw [hfilter]
      simp only [lastSave, ih]

theorem lastSave_map (L : List (Id × ℚ)) (g : Id → ℚ → ℚ) (id : Id) :
    lastSave (L.map (fun x => (x.1, g x.1 x.2))) id = (lastSave L id).map (g id) := by
  induction L with
  | nil => rfl
  | cons x L ih =>
    simp only [List.map_cons, lastSave, ih]
    cases lastSave L id with
    | some v => rfl
    | none =>
      by_cases hx : x.1 = id
      · simp [hx]
      · simp [hx]

theorem lastSave_mem {ws : List (Id × ℚ)} {id : Id} {v : ℚ} (h : lastSave ws id = some v) :
    (id, v) ∈ ws := by
  induction ws with
  | nil => simp [lastSave] at h
  | cons w ws ih =>
    simp only [lastSave] at h
    cases hl : lastSave ws id with
    | some u =>
      rw [hl] at h
      simp only [Option.some.injEq] at h
      subst h
      exact List.mem_cons_of_mem _ (ih hl)
    | none =>
      rw [hl] at h
      by_cases hw : w.1 = id
      · simp only [hw, if_true, Option.some.injEq] at h
        subst h
        subst hw
        exact List.mem_cons_self _ _
      · simp [hw] at h

theorem lastSave_isSome_of_mem {ws : List (Id × ℚ)} {w : Id × ℚ} (h : w ∈ ws) :
    ∃ v, lastSave ws w.1 = some v := by
  induction ws with
  | nil => cases h
  | cons x ws ih =>
    simp only [lastSave]
    cases hl : lastSave ws w.1 with
    | some u => exact ⟨u, rfl⟩
    | none =>
      rcases List.mem_cons.mp h with rfl | h
      · exact ⟨w.2, by simp⟩
      · obtain ⟨v, hv⟩ := ih h
        rw [hl] at hv
        cases hv

theorem stockOf_of_find {ps : List Product} {id : Id} {p : Product}
    (h : findProduct ps id = some p) : stockOf ps id = p.stock := by
  simp [stockOf, h]

theorem stockOf_cons_self (p : Product) (t : List Product) : stockOf (p :: t) p.id = p.stock := by
  simp [stockOf, findProduct]

theorem stockOf_cons_ne (p : Product) (t : List Product) {id : Id} (h : id ≠ p.id) :
    stockOf (p :: t) id = stockOf t id := by
  have h2 : ¬ p.id = id := fun h3 => h h3.symm
  simp [stockOf, findProduct, List.find?_cons, h2]

/-- The product found under an id after a list of saves: the one found before, with the
value of the last save addressed to the id. -/
theorem findProduct_applySaves (ps : List Product) (ws : List (Id × ℚ)) (id : Id) :
    findProduct (applySaves ps ws) id
      = (findProduct ps id).map (fun p => { p with stock := (lastSave ws id).getD p.stock }) := by
  induction ps generalizing ws with
  | nil => simp [applySaves_nil, findProduct]
  | cons p t ih =>
    rw [applySaves_head]
    by_cases hp : p.id = id
    · subst hp
      simp [findProduct, List.find?_cons]
    · have hne : id ≠ p.id := fun h => hp h.symm
      have := ih (ws.filter (fun w => decide (w.1 ≠ p.id)))
      rw [lastSave_filter_ne ws hne] at this
      simpa [findProduct, List.find?_cons, hp] using this

theorem filter_map_saves (L : List (Id × ℚ)) (pid : Id) (g g' : Id → ℚ → ℚ)
    (h : ∀ i, i ≠ pid → ∀ q, g i q = g' i q) :
    (L.map (fun x => (x.1, g x.1 x.2))).filter (fun w => decide (w.1 ≠ pid))
      = (L.filter (fun w => decide (w.1 ≠ pid))).map (fun x => (x.1, g' x.1 x.2)) := by
  induction L with
  | nil => rfl
  | cons x L ih =>
    by_cases hx : x.1 = pid
    · have h1 : (x :: L).filter (fun w => decide (w.1 ≠ pid))
          = L.filter (fun w => decide (w.1 ≠ pid)) := by
        simp [List.filter_cons, hx]
      rw [h1, List.map_cons, ← ih]
      simp [List.filter_cons, hx]
    · have h1 : (x :: L).filter (fun w => decide (w.1 ≠ pid))
          = x :: L.filter (fun w => decide (w.1 ≠ pid)) := by
        simp [List.filter_cons, hx]
      rw [h1, List.map_cons, List.map_cons, ← ih, ← h x.1 hx x.2]
      simp [List.filter_cons, hx]

/-- Saving, for every pair of a list, the stock read at the start minus the quantity and
then, for every pair of the same list, the stock read afterwards plus the quantity gives
back the collection one started from. -/
theorem applySaves_roundtrip (ps : List Product) (L : List (Id × ℚ)) :
    applySaves (applySaves ps (L.map (fun x => (x.1, stockOf ps x.1 - x.2))))
      (L.map (fun x => (x.1,
        stockOf (applySaves ps (L.map (fun x => (x.1, stockOf ps x.1 - x.2)))) x.1 + x.2)))
      = ps := by
  induction ps generalizing L with
  | nil => simp only [applySaves_nil]
  | cons p t ih =>
    have hfirst : (L.map (fun x => (x.1, stockOf (p :: t) x.1 - x.2))).filter
          (fun w => decide (w.1 ≠ p.id))
        = (L.filter (fun w => decide (w.1 ≠ p.id))).map (fun x => (x.1, stockOf t x.1 - x.2)) :=
      filter_map_saves L p.id (fun i q => stockOf (p :: t) i - q) (fun i q => stockOf t i - q)
        (fun i hi q => by simp only [stockOf_cons_ne p t hi])
    have hlast1 := lastSave_map L (fun i q => stockOf (p :: t) i - q) p.id
    rw [applySaves_head p t, hfirst, hlast1, stockOf_cons_self]
    have key : ∀ (v : ℚ) (p1 : Product) (t1 : List Product),
        v = ((lastSave L p.id).map (fun q => p.stock - q)).getD p.stock →
        p1 = { p with stock := v } →
        t1 = applySaves t ((L.filter (fun w => decide (w.1 ≠ p.id))).map
          (fun x => (x.1, stockOf t x.1 - x.2))) →
        applySaves (p1 :: t1) (L.map (fun x => (x.1, stockOf (p1 :: t1) x.1 + x.2)))
          = p :: t := by
      intro v p1 t1 hv hp1 ht1
      have hid : p1.id = p.id := by rw [hp1]
      have hsecond : (L.map (fun x => (x.1, stockOf (p1 :: t1) x.1 + x.2))).filter
            (fun w => decide (w.1 ≠ p1.id))
          = (L.filter (fun w => decide (w.1 ≠ p1.id))).map
              (fun x => (x.1, stockOf t1 x.1 + x.2)) :=
        filter_map_saves L p1.id (fun i q => stockOf (p1 :: t1) i + q)
          (fun i q => stockOf t1 i + q)
          (fun i hi q => by simp only [stockOf_cons_ne p1 t1 hi])
      have hlast2 := lastSave_map L (fun i q => stockOf (p1 :: t1) i + q) p1.id
      rw [applySaves_head p1 t1, hsecond, hlast2, stockOf_cons_self, hid]
      have htail := ih (L.filter (fun w => decide (w.1 ≠ p.id)))
      rw [← ht1] at htail
      rw [htail]
      congr 1
      rw [hp1, hv]
      cases lastSave L p.id with
      | none => simp
      | some q => simp
    exact key _ _ _ rfl rfl rfl

theorem lastSave_eq_none_of_not_mem {ws : List (Id × ℚ)} {id : Id}
    (h : id ∉ ws.map (fun w => w.1)) : lastSave ws id = none := by
  cases hl : lastSave ws id with
  | none => rfl
  | some v => exact absurd (List.mem_map.mpr ⟨(id, v), lastSave_mem hl, rfl⟩) h

/-- When no two lines reference the same product, the quantity the lines record for a
product is that of the last (and only) line referencing it. -/
theorem orderedQuantity_of_nodup {lines : List OrderItem}
    (hd : (lines.map (fun l => l.product)).Nodup) (id : Id) :
    orderedQuantity lines id
      = (lastSave (lines.map (fun l => (l.product, l.quantity))) id).getD 0 := by
  induction lines with
  | nil => rfl
  | cons l lines ih =>
    rw [List.map_cons, List.nodup_cons] at hd
    have ih' := ih hd.2
    simp only [orderedQuantity] at ih' ⊢
    by_cases hl : l.product = id
    · have hnot : id ∉ (lines.map (fun l => (l.product, l.quantity))).map (fun w => w.1) := by
        rw [List.map_map, ← hl]
        exact hd.1
      have hnone := lastSave_eq_none_of_not_mem hnot
      rw [hnone] at ih'
      simp only [Option.getD_none] at ih'
      simp [List.filter_cons, hl, lastSave, hnone, ih']
    · simp [List.filter_cons, hl, lastSave, ih']
      cases lastSave (lines.map (fun l => (l.product, l.quantity))) id <;> simp

/-- The stock a list of saves of the form "stock read at the start, adjusted by the
line's quantity" leaves for a product that exists: the adjustment of the last line
referencing it, or the former stock when no line references it. -/
theorem stockOf_applySaves_lines (ps : List Product) (lines : List OrderItem)
    (g : ℚ → ℚ → ℚ) (id : Id) (p : Product) (hf : findProduct ps id = some p) :
    stockOf (applySaves ps (lines.map (fun l => (l.product, g (stockOf ps l.product) l.quantity))))
        id
      = ((lastSave (lines.map (fun l => (l.product, l.quantity))) id).map
          (fun q => g p.stock q)).getD p.stock := by
  have hmap := lastSave_map (lines.map (fun l => (l.product, l.quantity)))
    (fun i q => g (stockOf ps i) q) id
  simp only [List.map_map, Function.comp_def] at hmap
  have hfind := findProduct_applySaves ps
    (lines.map (fun l => (l.product, g (stockOf ps l.product) l.quantity))) id
  rw [hf, Option.map_some', hmap, stockOf_of_find hf] at hfind
  rw [stockOf_of_find hfind]

/-! ## Cancellation -/

theorem orderSchemaValid_quantity {items : List OrderItem} {address : AddressField}
    {pm : Option String} {r : Address × String}
    (h : orderSchemaValid items address pm = some r) : ∀ l ∈ items, 1 ≤ l.quantity := by
  unfold orderSchemaValid at h
  split at h
  · split at h
    · rename_i hcond
      simp only [Bool.and_eq_true, List.all_eq_true, decide_eq_true_eq] at hcond
      exact hcond.1.1.1.1.1.1
    · cases h
  · cases h

theorem restoreCallback_of_valid {ps : List Product} {l : OrderItem} {p : Product}
    (hf : findProduct ps l.product = some p) (hv : 0 ≤ p.stock + l.quantity) :
    restoreCallback ps l = .saved l.product (stockOf ps l.product + l.quantity) l 0 := by
  simp [restoreCallback, hf, stockValid, hv, stockOf]

/-- The callbacks of `cancelOrder` on lines whose products exist and whose restored stock
passes the schema validator: none throws and each save writes the stock read at the start
plus the line's quantity. -/
theorem restore_callbacks {ps : List Product} {lines : List OrderItem}
    (h : ∀ l ∈ lines, ∃ p, findProduct ps l.product = some p ∧ 0 ≤ p.stock + l.quantity) :
    collectLines (lines.map (restoreCallback ps)) = some lines ∧
    (lines.map (restoreCallback ps)).filterMap Callback.write?
      = lines.map (fun l => (l.product, stockOf ps l.product + l.quantity)) := by
  induction lines with
  | nil => exact ⟨rfl, rfl⟩
  | cons l lines ih =>
    obtain ⟨hc, hw⟩ := ih (fun x hx => h x (List.mem_cons_of_mem _ hx))
    obtain ⟨p, hf, hv⟩ := h l (List.mem_cons_self _ _)
    have hcb := restoreCallback_of_valid hf hv
    constructor
    · simp [List.map_cons, hcb, collectLines, hc]
    · simp [List.map_cons, hcb, Callback.write?, hw]

/-- What `cancelOrder` does for an authorized caller on a pending order all of whose
lines can be restored. -/
theorem cancelOrder_of_restorable {st : Store} {user : User} {orderId : Id} {order : Order}
    (hfind : findOrder st.orders orderId = some order)
    (hauth : order.user = user.id ∨ user.role = "admin")
    (hstatus : order.status = .pending)
    (h : ∀ l ∈ order.items,
      ∃ p, findProduct st.products l.product = some p ∧ 0 ≤ p.stock + l.quantity) :
    cancelOrder st user orderId
      = ({ products := applySaves st.products
             (order.items.map (fun l => (l.product, stockOf st.products l.product + l.quantity)))
           orders := setStatus st.orders order.id .cancelled },
         .success 200 { order with status := .cancelled }) := by
  obtain ⟨hc, hw⟩ := restore_callbacks h
  have hna : ¬ (order.user ≠ user.id ∧ user.role ≠ "admin") := by
    rintro ⟨h1, h2⟩
    rcases hauth with h3 | h3
    · exact h1 h3
    · exact h2 h3
  simp only [cancelOrder, hfind, hna, if_false, hstatus, ne_eq, not_true_eq_false, hc,
    applyWrites, hw]

/-! ## Order creation -/

/-- C1: when `createOrder` succeeds, the order it stored has a `totalAmount` equal to the
sum over its stored lines of price times quantity, and the price of every line is the
price of the referenced product as read from the store during the call. -/
theorem createOrder_totalAmount (st st1 : Store) (user : User) (body : Body) (s : Nat)
    (order : Order) (h : createOrder st user body = (st1, .success s order)) :
    findOrder st1.orders order.id = some order ∧
    order.totalAmount = (order.items.map (fun l => l.price * l.quantity)).sum ∧
    ∀ l ∈ order.items, ∃ p, findProduct st.products l.product = some p ∧ l.price = p.price := by
  obtain ⟨items, -, hv, hlines, htot, -, hid, -, -, -, hst⟩ := createOrder_success_inv h
  obtain ⟨lines, hl, hsum, hprice, -⟩ := order_callbacks (validateItems_none_iff.mp hv)
  rw [hl] at hlines
  cases hlines
  refine ⟨?_, ?_, ?_⟩
  · rw [hst]
    exact findOrder_append_new hid
  · rw [htot, accumulateTotal, hsum 0, zero_add]
  · intro l hl'
    obtain ⟨p, hf, hp, -⟩ := hprice l hl'
    exact ⟨p, hf, hp⟩

/-- The order test "should create new order": the stored total is 4 × 100, whatever
price and total the client sent. -/
theorem createOrder_totalAmount_witness :
    createOrder testStore testUser testRequest = (storeAfterCreate, .success 201 createdOrder) ∧
    findOrder storeAfterCreate.orders createdOrder.id = some createdOrder ∧
    createdOrder.totalAmount = (createdOrder.items.map (fun l => l.price * l.quantity)).sum ∧
    ∀ l ∈ createdOrder.items,
      ∃ p, findProduct testStore.products l.product = some p ∧ l.price = p.price :=
  ⟨by decide!,
   createOrder_totalAmount testStore storeAfterCreate testUser testRequest 201 createdOrder
     (by decide!)⟩

/-- C2 (evaluation at the failing input): a request with two lines of 3 units of the
same product, on a stock of 10, succeeds and records both lines (6 units, total 600), but
the product is left with a stock of 7 where 10 - 6 = 4 was to be expected: both callbacks
of the `Promise.all` read the stock 10 and each saves 10 - 3. -/
theorem createOrder_duplicate_lines_stock :
    createOrder testStore testUser
        (testBody [{ product := some 1, quantity := some 3 },
                   { product := some 1, quantity := some 3 }])
      = ({ products := [{ testProduct with stock := 7 }],
           orders := [testOrder [{ product := 1, quantity := 3, price := 100 },
                                 { product := 1, quantity := 3, price := 100 }] 600] },
         .success 201 (testOrder [{ product := 1, quantity := 3, price := 100 },
                                  { product := 1, quantity := 3, price := 100 }] 600)) ∧
    stockOf testStore.products 1
        - orderedQuantity [{ product := 1, quantity := 3, price := 100 },
                           { product := 1, quantity := 3, price := 100 }] 1 = 4 := by
  decide!

/-- What `createOrder` does to the stock of an existing product on success: it falls by
the quantity of the last line that references the product, and stays as it was when no
line references it. -/
theorem createOrder_stock_last_line (st st1 : Store) (user : User) (body : Body) (s : Nat)
    (order : Order) (h : createOrder st user body = (st1, .success s order))
    (id : Id) (p : Product) (hf : findProduct st.products id = some p) :
    stockOf st1.products id
      = ((lastSave (order.items.map (fun l => (l.product, l.quantity))) id).map
          (fun q => p.stock - q)).getD p.stock := by
  obtain ⟨items, -, hv, hlines, -, -, -, -, -, -, hst⟩ := createOrder_success_inv h
  obtain ⟨lines, hl, -, -, hw⟩ := order_callbacks (validateItems_none_iff.mp hv)
  rw [hl] at hlines
  cases hlines
  have hprod : st1.products = applySaves st.products
      (order.items.map (fun l => (l.product, stockOf st.products l.product - l.quantity))) := by
    rw [hst]
    simp only [applyWrites, hw]
  rw [hprod]
  exact stockOf_applySaves_lines st.products order.items (fun a q => a - q) id p hf

/-- When `createOrder` succeeds on a request no two lines of which reference the same
product, every existing product ends with its former stock minus the quantity ordered
for it. -/
theorem createOrder_stock_distinct (st st1 : Store) (user : User) (body : Body) (s : Nat)
    (order : Order) (h : createOrder st user body = (st1, .success s order))
    (hd : (order.items.map (fun l => l.product)).Nodup)
    (id : Id) (p : Product) (hf : findProduct st.products id = some p) :
    stockOf st1.products id = stockOf st.products id - orderedQuantity order.items id := by
  rw [createOrder_stock_last_line st st1 user body s order h id p hf,
    orderedQuantity_of_nodup hd, stockOf_of_find hf]
  cases lastSave (order.items.map (fun l => (l.product, l.quantity))) id <;> simp

/-- C3: when the items, address and payment checks pass and some item asks for more than
the stock of its product, every item before it having a product id, a non-zero quantity
and an existing product, `createOrder` answers with the 400 insufficient-stock error
(naming the first product whose stock is insufficient) and leaves the store as it
was: no order is created and no stock changes, whatever the other items are.  When all
earlier items have sufficient stock the product named is that of the item. -/
theorem createOrder_insufficient_stock (st : Store) (user : User) (body : Body)
    (pre post : List ItemReq) (item : ItemReq) (a : Address) (pid : Id) (q : ℚ)
    (product : Product)
    (hitems : body.items = .array (pre ++ item :: post))
    (haddr : body.shippingAddress = .object a)
    (hpay : truthyStr body.paymentMethod = true)
    (hpre : ∀ it ∈ pre, ItemResolves st.products it)
    (hp : item.product = some pid) (hq : item.quantity = some q) (hq0 : q ≠ 0)
    (hf : findProduct st.products pid = some product) (hlt : product.stock < q) :
    (∃ p, findProduct st.products p.id = some p ∧
      createOrder st user body = (st, .failure (.insufficientStock p.name p.stock))) ∧
    (createOrder st user body).2.status? = some 400 ∧
    ((∀ it ∈ pre, ItemPasses st.products it) →
      createOrder st user body
        = (st, .failure (.insufficientStock product.name product.stock))) := by
  have hne : pre ++ item :: post ≠ [] := by simp
  obtain ⟨p, hpf, hv⟩ : ∃ p, findProduct st.products p.id = some p ∧
      validateItems st.products (pre ++ item :: post)
        = some (.insufficientStock p.name p.stock) :=
    validateItems_insufficient hpre hp hq hq0 hf hlt
  have hres : createOrder st user body = (st, .failure (.insufficientStock p.name p.stock)) :=
    createOrder_of_validation_error hitems hne haddr hpay hv
  refine ⟨⟨p, hpf, hres⟩, ?_, ?_⟩
  · rw [hres]
    rfl
  · intro hall
    apply createOrder_of_validation_error hitems hne haddr hpay
    rw [validateItems_append_of_passes hall]
    simp [validateItems, hp, hq, truthyNum, hq0, hf, hlt]

/-- The order test "should not place an order with insufficient stock" with a sufficient
line before and after the line of 999 units. -/
theorem createOrder_insufficient_stock_witness :
    (∃ p, findProduct testStore.products p.id = some p ∧
      createOrder testStore testUser
          (testBody [{ product := some 1, quantity := some 2 },
                     { product := some 1, quantity := some 999 },
                     { product := some 1, quantity := some 1 }])
        = (testStore, .failure (.insufficientStock p.name p.stock))) ∧
    (createOrder testStore testUser
          (testBody [{ product := some 1, quantity := some 2 },
                     { product := some 1, quantity := some 999 },
                     { product := some 1, quantity := some 1 }])).2.status? = some 400 ∧
    ((∀ it ∈ [({ product := some 1, quantity := some 2 } : ItemReq)],
        ItemPasses testStore.products it) →
      createOrder testStore testUser
          (testBody [{ product := some 1, quantity := some 2 },
                     { product := some 1, quantity := some 999 },
                     { product := some 1, quantity := some 1 }])
        = (testStore, .failure (.insufficientStock testProduct.name testProduct.stock))) :=
  createOrder_insufficient_stock testStore testUser
    (testBody [{ product := some 1, quantity := some 2 },
               { product := some 1, quantity := some 999 },
               { product := some 1, quantity := some 1 }])
    [{ product := some 1, quantity := some 2 }] [{ product := some 1, quantity := some 1 }]
    { product := some 1, quantity := some 999 } testAddress 1 999 testProduct
    rfl rfl (by decide)
    (by
      intro it hit
      rw [List.mem_singleton] at hit
      subst hit
      exact ⟨1, 2, testProduct, rfl, rfl, by decide, by decide⟩)
    rfl rfl (by decide) (by decide) (by decide!)

/-- C4: when the items, address and payment checks pass and some item with a non-zero
quantity references a product id that is not in the store, every item before it passing
its checks, `createOrder` answers 404 and leaves the store as it was: no order is
created and no stock changes. -/
theorem createOrder_unknown_product (st : Store) (user : User) (body : Body)
    (pre post : List ItemReq) (item : ItemReq) (a : Address) (pid : Id) (q : ℚ)
    (hitems : body.items = .array (pre ++ item :: post))
    (haddr : body.shippingAddress = .object a)
    (hpay : truthyStr body.paymentMethod = true)
    (hpre : ∀ it ∈ pre, ItemPasses st.products it)
    (hp : item.product = some pid) (hq : item.quantity = some q) (hq0 : q ≠ 0)
    (hf : findProduct st.products pid = none) :
    createOrder st user body = (st, .failure (.productNotFound pid)) ∧
    (createOrder st user body).2.status? = some 404 := by
  have hne : pre ++ item :: post ≠ [] := by simp
  have hv : validateItems st.products (pre ++ item :: post) = some (.productNotFound pid) := by
    rw [validateItems_append_of_passes hpre]
    simp [validateItems, hp, hq, truthyNum, hq0, hf]
  have hres : createOrder st user body = (st, .failure (.productNotFound pid)) :=
    createOrder_of_validation_error hitems hne haddr hpay hv
  exact ⟨hres, by rw [hres]; rfl⟩

/-- The order test "should not create order with invalid product", with a valid line
before the unknown product. -/
theorem createOrder_unknown_product_witness :
    createOrder testStore testUser
        (testBody [{ product := some 1, quantity := some 2 },
                   { product := some 77, quantity := some 2 }])
      = (testStore, .failure (.productNotFound 77)) ∧
    (createOrder testStore testUser
        (testBody [{ product := some 1, quantity := some 2 },
                   { product := some 77, quantity := some 2 }])).2.status? = some 404 :=
  createOrder_unknown_product testStore testUser
    (testBody [{ product := some 1, quantity := some 2 },
               { product := some 77, quantity := some 2 }])
    [{ product := some 1, quantity := some 2 }] []
    { product := some 77, quantity := some 2 } testAddress 77 2
    rfl rfl (by decide)
    (by
      intro it hit
      rw [List.mem_singleton] at hit
      subst hit
      exact ⟨1, 2, testProduct, rfl, rfl, by decide, by decide, by decide!⟩)
    rfl rfl (by decide) (by decide)

/-- C5: starting from a store in which every product has a stock of at least 0, after
any sequence of `createOrder` and `cancelOrder` calls, with any callers and any request
bodies, every product still has a stock of at least 0. -/
theorem run_stock_nonneg (st : Store) (ops : List Op)
    (h : ∀ p ∈ st.products, 0 ≤ p.stock) : ∀ p ∈ (run st ops).products, 0 ≤ p.stock := by
  induction ops generalizing st with
  | nil => exact h
  | cons op ops ih =>
    simp only [run, List.foldl_cons]
    exact ih (step st op) (step_nonneg st op h)

/-- An order for the whole stock, its cancellation, a second cancellation and an order
for a negative quantity leave the stock of the test product at 13. -/
theorem run_stock_nonneg_witness :
    (∀ p ∈ testStore.products, 0 ≤ p.stock) ∧
    (run testStore
        [.create testUser (testBody [{ product := some 1, quantity := some 10 }]),
         .cancel testUser 1, .cancel testUser 1,
         .create otherUser (testBody [{ product := some 1, quantity := some (-3) }])]).products
      = [{ testProduct with stock := 13 }] ∧
    ∀ p ∈ (run testStore
        [.create testUser (testBody [{ product := some 1, quantity := some 10 }]),
         .cancel testUser 1, .cancel testUser 1,
         .create otherUser (testBody [{ product := some 1, quantity := some (-3) }])]).products,
      0 ≤ p.stock :=
  ⟨by decide!, by decide!, run_stock_nonneg testStore _ (by decide!)⟩

/-! ## Cancellation and the round trip -/

/-- C8: when `createOrder` succeeds, cancelling the created order by the same requester
right away succeeds (200, status `cancelled`) and leaves the Products collection exactly
as it was before the `createOrder` call: every product has its former stock. -/
theorem cancel_after_create_restores_stock (st st1 : Store) (user : User) (body : Body)
    (s : Nat) (order : Order) (h : createOrder st user body = (st1, .success s order)) :
    (cancelOrder st1 user order.id).2 = .success 200 { order with status := .cancelled } ∧
    (cancelOrder st1 user order.id).1.products = st.products := by
  obtain ⟨items, -, hv, hlines, -, ⟨r, hschema⟩, hid, huser, hstatus, -, hst⟩ :=
    createOrder_success_inv h
  obtain ⟨lines, hl, -, hprice, hw⟩ := order_callbacks (validateItems_none_iff.mp hv)
  rw [hl] at hlines
  cases hlines
  have hq := orderSchemaValid_quantity hschema
  have hprod : st1.products = applySaves st.products
      (order.items.map (fun l => (l.product, stockOf st.products l.product - l.quantity))) := by
    rw [hst]
    simp only [applyWrites, hw]
  have hfind : findOrder st1.orders order.id = some order := by
    rw [hst]
    exact findOrder_append_new hid
  have hrest : ∀ l ∈ order.items,
      ∃ p, findProduct st1.products l.product = some p ∧ 0 ≤ p.stock + l.quantity := by
    intro l hl'
    obtain ⟨p, hf, -, -⟩ := hprice l hl'
    rw [hprod, findProduct_applySaves, hf]
    refine ⟨_, rfl, ?_⟩
    have hmem : (l.product, stockOf st.products l.product - l.quantity)
        ∈ order.items.map (fun l => (l.product, stockOf st.products l.product - l.quantity)) :=
      List.mem_map.mpr ⟨l, hl', rfl⟩
    obtain ⟨v, hvl⟩ := lastSave_isSome_of_mem hmem
    simp only at hvl
    simp only [hvl, Option.getD_some]
    obtain ⟨l', hl2, heq⟩ := List.mem_map.mp (lastSave_mem hvl)
    obtain ⟨p', hf', -, hle'⟩ := hprice l' hl2
    have hv' : v = p'.stock - l'.quantity := by
      have := (Prod.mk.inj heq).2
      simp only [stockOf, hf'] at this
      exact this.symm
    have := hq l hl'
    rw [hv']
    linarith
  have hcancel := cancelOrder_of_restorable hfind (Or.inl huser) hstatus hrest
  rw [hcancel]
  refine ⟨rfl, ?_⟩
  have hround := applySaves_roundtrip st.products
    (order.items.map (fun l => (l.product, l.quantity)))
  simp only [List.map_map, Function.comp_def] at hround
  simp only [hprod]
  exact hround

/-- The example of the specification: stock 10, an order of 4 units, and its
cancellation, after which the stock is 10 again. -/
theorem cancel_after_create_restores_stock_witness :
    createOrder testStore testUser testRequest = (storeAfterCreate, .success 201 createdOrder) ∧
    (cancelOrder storeAfterCreate testUser createdOrder.id).2
      = .success 200 { createdOrder with status := .cancelled } ∧
    (cancelOrder storeAfterCreate testUser createdOrder.id).1.products = testStore.products :=
  ⟨by decide!,
   cancel_after_create_restores_stock testStore storeAfterCreate testUser testRequest 201
     createdOrder (by decide!)⟩

/-- C6 (evaluation at the failing input): the owner cancels a pending order with two
lines of 3 units of the same product.  The call answers 200 and marks the order
cancelled, but the stock rises by 3, not by the 6 units the two lines record: from 4 to 7
where 10 was to be expected, and, in the store that `createOrder` itself leaves behind
for such a request, from 7 to 10 where the two lines add up to 13.  Both callbacks of the
`Promise.all` read the same stock and each saves that stock plus 3. -/
theorem cancelOrder_duplicate_lines_stock :
    cancelOrder (twoLineStore 4) testUser 1
      = ({ products := [{ testProduct with stock := 7 }],
           orders := [{ twoLineOrder with status := .cancelled }] },
         .success 200 { twoLineOrder with status := .cancelled }) ∧
    stockOf (twoLineStore 4).products 1 + orderedQuantity twoLineOrder.items 1 = 10 ∧
    createOrder testStore testUser
        (testBody [{ product := some 1, quantity := some 3 },
                   { product := some 1, quantity := some 3 }])
      = (twoLineStore 7, .success 201 twoLineOrder) ∧
    (cancelOrder (twoLineStore 7) testUser 1).1.products = [testProduct] ∧
    stockOf (twoLineStore 7).products 1 + orderedQuantity twoLineOrder.items 1 = 13 := by
  decide!

/-- When the owner or an admin cancels a pending order whose lines reference existing
products, pairwise distinct, and have quantities of at least 0 on stocks of at least 0,
the call answers 200, the status becomes `cancelled` and every existing product ends with
its former stock plus the quantity the order records for it. -/
theorem cancelOrder_stock_distinct (st : Store) (user : User) (orderId : Id) (order : Order)
    (hfind : findOrder st.orders orderId = some order)
    (hauth : order.user = user.id ∨ user.role = "admin")
    (hstatus : order.status = .pending)
    (hlines : ∀ l ∈ order.items,
      ∃ p, findProduct st.products l.product = some p ∧ 0 ≤ p.stock + l.quantity)
    (hd : (order.items.map (fun l => l.product)).Nodup)
    (id : Id) (p : Product) (hf : findProduct st.products id = some p) :
    (cancelOrder st user orderId).2 = .success 200 { order with status := .cancelled } ∧
    stockOf (cancelOrder st user orderId).1.products id
      = stockOf st.products id + orderedQuantity order.items id := by
  rw [cancelOrder_of_restorable hfind hauth hstatus hlines]
  refine ⟨rfl, ?_⟩
  simp only
  rw [stockOf_applySaves_lines st.products order.items (fun a q => a + q) id p hf,
    orderedQuantity_of_nodup hd, stockOf_of_find hf]
  cases lastSave (order.items.map (fun l => (l.product, l.quantity))) id <;> simp

/-- C7 (counterexample): a user who is neither the owner nor an admin cancels an order
that is already cancelled; the answer is the 403 of the authorization check, not the 400
of the status guard. -/
theorem cancelOrder_cancelled_by_stranger :
    findOrder storeAfterCancel.orders 1 = some { createdOrder with status := .cancelled } ∧
    cancelOrder storeAfterCancel otherUser 1
      = (storeAfterCancel, .failure .notAuthorizedCancel) ∧
    (cancelOrder storeAfterCancel otherUser 1).2.status? ≠ some 400 := by
  decide!

/-- C7 (amended): `cancelOrder` on an order whose status is already `cancelled` changes
no product and no order, whoever calls it; invoked by the owner or an admin it fails with
400 "Only pending orders can be canceled.", invoked by anyone else it fails with 403. -/
theorem cancelOrder_cancelled (st : Store) (user : User) (orderId : Id) (order : Order)
    (hfind : findOrder st.orders orderId = some order) (hstatus : order.status = .cancelled) :
    (cancelOrder st user orderId).1 = st ∧
    ((order.user = user.id ∨ user.role = "admin") →
      (cancelOrder st user orderId).2 = .failure .notPending ∧
      (cancelOrder st user orderId).2.status? = some 400) ∧
    (¬ (order.user = user.id ∨ user.role = "admin") →
      (cancelOrder st user orderId).2 = .failure .notAuthorizedCancel ∧
      (cancelOrder st user orderId).2.status? = some 403) := by
  by_cases hauth : order.user = user.id ∨ user.role = "admin"
  · have hna : ¬ (order.user ≠ user.id ∧ user.role ≠ "admin") := by
      rintro ⟨h1, h2⟩
      rcases hauth with h3 | h3
      · exact h1 h3
      · exact h2 h3
    have hres : cancelOrder st user orderId = (st, .failure .notPending) := by
      simp [cancelOrder, hfind, hna, hstatus]
    rw [hres]
    exact ⟨rfl, fun _ => ⟨rfl, rfl⟩, fun h => absurd hauth h⟩
  · have hna : order.user ≠ user.id ∧ user.role ≠ "admin" :=
      ⟨fun h => hauth (Or.inl h), fun h => hauth (Or.inr h)⟩
    have hres : cancelOrder st user orderId = (st, .failure .notAuthorizedCancel) := by
      simp [cancelOrder, hfind, hna]
    rw [hres]
    exact ⟨rfl, fun h => absurd h hauth, fun _ => ⟨rfl, rfl⟩⟩

/-- The second cancellation of the order of `testRequest` by its owner. -/
theorem cancelOrder_cancelled_witness :
    cancelOrder storeAfterCreate testUser 1
      = (storeAfterCancel, .success 200 { createdOrder with status := .cancelled }) ∧
    (cancelOrder storeAfterCancel testUser 1).1 = storeAfterCancel ∧
    ((({ createdOrder with status := .cancelled } : Order).user = testUser.id
        ∨ testUser.role = "admin") →
      (cancelOrder storeAfterCancel testUser 1).2 = .failure .notPending ∧
      (cancelOrder storeAfterCancel testUser 1).2.status? = some 400) ∧
    (¬ (({ createdOrder with status := .cancelled } : Order).user = testUser.id
        ∨ testUser.role = "admin") →
      (cancelOrder storeAfterCancel testUser 1).2 = .failure .notAuthorizedCancel ∧
      (cancelOrder storeAfterCancel testUser 1).2.status? = some 403) :=
  ⟨by decide!,
   cancelOrder_cancelled storeAfterCancel testUser 1 { createdOrder with status := .cancelled }
     (by decide!) rfl⟩

/-! ## Authorization -/

/-- C9: on an existing order, `getOrderById` and `cancelOrder` answer 403 exactly when the
requester is neither the owner of the order nor an admin; a 403 leaves the store (orders
and stock) as it was, and an admin is never answered 403. -/
theorem forbidden_iff_not_owner_nor_admin (st : Store) (user : User) (orderId : Id)
    (order : Order) (hfind : findOrder st.orders orderId = some order) :
    ((getOrderById st user orderId).2.status? = some 403
      ↔ (order.user ≠ user.id ∧ user.role ≠ "admin")) ∧
    ((cancelOrder st user orderId).2.status? = some 403
      ↔ (order.user ≠ user.id ∧ user.role ≠ "admin")) ∧
    ((getOrderById st user orderId).2.status? = some 403 → (getOrderById st user orderId).1 = st) ∧
    ((cancelOrder st user orderId).2.status? = some 403 → (cancelOrder st user orderId).1 = st) ∧
    (user.role = "admin" →
      (getOrderById st user orderId).2.status? ≠ some 403 ∧
      (cancelOrder st user orderId).2.status? ≠ some 403) := by
  have hget : (getOrderById st user orderId).2.status? = some 403
      ↔ (order.user ≠ user.id ∧ user.role ≠ "admin") := by
    by_cases hna : order.user ≠ user.id ∧ user.role ≠ "admin"
    · simp [getOrderById, hfind, hna, Response.status?, ApiError.statusCode]
    · simp only [getOrderById, hfind, hna, if_false, Response.status?, iff_false]
      decide
  have hcancel : (cancelOrder st user orderId).2.status? = some 403
      ↔ (order.user ≠ user.id ∧ user.role ≠ "admin") := by
    by_cases hna : order.user ≠ user.id ∧ user.role ≠ "admin"
    · simp [cancelOrder, hfind, hna, Response.status?, ApiError.statusCode]
    · simp only [cancelOrder, hfind, hna, if_false, iff_false]
      split
      · simp [Response.status?, ApiError.statusCode]
      · split <;> simp [Response.status?]
  refine ⟨hget, hcancel, ?_, ?_, ?_⟩
  · intro _
    simp only [getOrderById, hfind]
    split <;> rfl
  · intro h
    have hna := hcancel.mp h
    simp [cancelOrder, hfind, hna]
  · intro hadmin
    exact ⟨fun h => (hget.mp h).2 hadmin, fun h => (hcancel.mp h).2 hadmin⟩

/-- The order test "should return 403 when user is not authorized to cancel another
user's order", and the same order fetched and cancelled by an admin. -/
theorem forbidden_iff_not_owner_nor_admin_witness :
    findOrder storeAfterCreate.orders 1 = some createdOrder ∧
    (cancelOrder storeAfterCreate otherUser 1).2.status? = some 403 ∧
    (getOrderById storeAfterCreate otherUser 1).2.status? = some 403 ∧
    (getOrderById storeAfterCreate adminUser 1).2.status? = some 200 ∧
    (cancelOrder storeAfterCreate adminUser 1).2.status? = some 200 ∧
    (cancelOrder storeAfterCreate otherUser 1).1 = storeAfterCreate :=
  ⟨by decide!, by decide!, by decide!, by decide!, by decide!,
   (forbidden_iff_not_owner_nor_admin storeAfterCreate otherUser 1 createdOrder
     (by decide!)).2.2.2.1 (by decide!)⟩

/-! ## The route `POST /orders` -/

/-- A fractional quantity: a request to `POST /orders` for 5/2 units of the test product is
accepted: the chains of `orderValidator` record no error, the answer is 201, an order
with a quantity of 5/2 is stored and the stock falls from 10 to 15/2. -/
theorem postOrders_fractional_quantity :
    orderValidator (testBody [{ product := some 1, quantity := some (5 / 2) }]) = [] ∧
    postOrders testStore testUser (testBody [{ product := some 1, quantity := some (5 / 2) }])
      = ({ products := [{ testProduct with stock := 15 / 2 }],
           orders := [testOrder [{ product := 1, quantity := 5 / 2, price := 100 }] 250] },
         .success 201 (testOrder [{ product := 1, quantity := 5 / 2, price := 100 }] 250)) := by
  decide!

/-- A quantity of zero: a request to `POST /orders` in which some item's quantity is zero or
absent is rejected, no order is created and no product's stock changes; the status is
400 when every product id of the request exists, and 400 or 404 in general. -/
theorem postOrders_zero_quantity (st : Store) (user : User) (body : Body)
    (items : List ItemReq) (item : ItemReq) (hitems : body.items = .array items)
    (hmem : item ∈ items) (hq : item.quantity = none ∨ item.quantity = some 0) :
    (postOrders st user body).1 = st ∧
    ((postOrders st user body).2.status? = some 400 ∨
      (postOrders st user body).2.status? = some 404) ∧
    ((∀ it ∈ items, ∀ pid, it.product = some pid → findProduct st.products pid ≠ none) →
      (postOrders st user body).2.status? = some 400) := by
  have hfalsy : truthyNum item.quantity = false := by
    rcases hq with h | h <;> simp [truthyNum, h]
  exact @createOrder_falsy_quantity st user (sanitizeBody body) items item hitems hmem hfalsy

/-- A request with a valid line followed by a line of quantity zero. -/
theorem postOrders_zero_quantity_witness :
    (postOrders testStore testUser
        (testBody [{ product := some 1, quantity := some 2 },
                   { product := some 1, quantity := some 0 }])).1 = testStore ∧
    ((postOrders testStore testUser
        (testBody [{ product := some 1, quantity := some 2 },
                   { product := some 1, quantity := some 0 }])).2.status? = some 400 ∨
      (postOrders testStore testUser
        (testBody [{ product := some 1, quantity := some 2 },
                   { product := some 1, quantity := some 0 }])).2.status? = some 404) ∧
    ((∀ it ∈ [({ product := some 1, quantity := some 2 } : ItemReq),
              { product := some 1, quantity := some 0 }],
        ∀ pid, it.product = some pid → findProduct testStore.products pid ≠ none) →
      (postOrders testStore testUser
        (testBody [{ product := some 1, quantity := some 2 },
                   { product := some 1, quantity := some 0 }])).2.status? = some 400) :=
  postOrders_zero_quantity testStore testUser
    (testBody [{ product := some 1, quantity := some 2 },
               { product := some 1, quantity := some 0 }])
    [{ product := some 1, quantity := some 2 }, { product := some 1, quantity := some 0 }]
    { product := some 1, quantity := some 0 } rfl (by simp) (Or.inr rfl)

/-- C10 (evaluation at the failing inputs): a request to `POST /orders` for 5/2 units of
the test product passes every check there is and is answered 201, the stock falling from
10 to 15/2, although the documentation of the route declares the quantity an integer.  A
request for -3 units makes `orderValidator` record "Quantity must be greater than 0", but
nothing reads the record: `createOrder` runs, the stock rises from 10 to 13 and only then
is the request turned down, by the exception raised when the order is stored; no order is
created, but the stock has changed. -/
theorem postOrders_quantity_not_positive_integer :
    orderValidator (testBody [{ product := some 1, quantity := some (5 / 2) }]) = [] ∧
    postOrders testStore testUser (testBody [{ product := some 1, quantity := some (5 / 2) }])
      = ({ products := [{ testProduct with stock := 15 / 2 }],
           orders := [testOrder [{ product := 1, quantity := 5 / 2, price := 100 }] 250] },
         .success 201 (testOrder [{ product := 1, quantity := 5 / 2, price := 100 }] 250)) ∧
    orderValidator (testBody [{ product := some 1, quantity := some (-3) }])
      = [.quantityNotPositive 0] ∧
    postOrders testStore testUser (testBody [{ product := some 1, quantity := some (-3) }])
      = ({ products := [{ testProduct with stock := 13 }], orders := [] }, .thrown) ∧
    createOrder testStore testUser (testBody [{ product := some 1, quantity := some (-3) }])
      = ({ products := [{ testProduct with stock := 13 }], orders := [] }, .thrown) ∧
    stockOf testStore.products 1 = 10 := by
  decide!

/-! ## What `createOrder` reads of the request -/

theorem validateItems_strip (ps : List Product) (items : List ItemReq) :
    validateItems ps
        (items.map (fun item => ({ product := item.product, quantity := item.quantity } : ItemReq)))
      = validateItems ps items := by
  induction items with
  | nil => rfl
  | cons item rest ih =>
    simp only [List.map_cons, validateItems, ih]

theorem createOrder_strip (st : Store) (user : User) (body : Body) :
    createOrder st user (stripClientFields body) = createOrder st user body := by
  rcases hb : body.items with _ | _ | items
  · simp [createOrder, stripClientFields, hb]
  · simp [createOrder, stripClientFields, hb]
  · have hc : (items.map (fun item =>
          ({ product := item.product, quantity := item.quantity } : ItemReq))).map
            (orderCallback st.products) = items.map (orderCallback st.products) := by
      rw [List.map_map]
      rfl
    simp only [createOrder, stripClientFields, hb, List.length_map, validateItems_strip, hc]

/-- C11: two requests by the same caller on the same store that differ only in the
`price` of their items and in the `totalAmount`, `user` and `status` fields of the body
get the same answer and leave the same store (same stored lines, total, owner and stock);
on success the owner is the requester, the status is `pending` and every line price is
the stored price of the product. -/
theorem createOrder_ignores_client_fields (st : Store) (user : User) (b1 b2 : Body)
    (h : stripClientFields b1 = stripClientFields b2) :
    createOrder st user b1 = createOrder st user b2 ∧
    ∀ st1 s order, createOrder st user b1 = (st1, .success s order) →
      order.user = user.id ∧ order.status = .pending ∧
      ∀ l ∈ order.items, ∃ p, findProduct st.products l.product = some p ∧ l.price = p.price := by
  constructor
  · rw [← createOrder_strip st user b1, ← createOrder_strip st user b2, h]
  · intro st1 s order hs
    obtain ⟨items, -, hv, hlines, -, -, -, huser, hstatus, -, -⟩ := createOrder_success_inv hs
    obtain ⟨lines, hl, -, hprice, -⟩ := order_callbacks (validateItems_none_iff.mp hv)
    rw [hl] at hlines
    cases hlines
    refine ⟨huser, hstatus, ?_⟩
    intro l hl'
    obtain ⟨p, hf, hp, -⟩ := hprice l hl'
    exact ⟨p, hf, hp⟩

/-- The request of the order test and a copy with a forged price, total, owner and status
are served alike: the stored order is `createdOrder` in both cases. -/
theorem createOrder_ignores_client_fields_witness :
    stripClientFields testRequest = stripClientFields forgedRequest ∧
    createOrder testStore testUser forgedRequest
      = (storeAfterCreate, .success 201 createdOrder) ∧
    createOrder testStore testUser testRequest = createOrder testStore testUser forgedRequest :=
  ⟨by decide!, by decide!,
   (createOrder_ignores_client_fields testStore testUser testRequest forgedRequest
     (by decide!)).1⟩

/-- C12 (evaluation at the failing input): a request for 2 units whose shipping address
has no street, and one whose payment method is "bitcoin".  The chains of
`orderValidator` record the error, but nothing reads the record: `createOrder` runs, the
stock falls from 10 to 8 and only then is the request turned down, by the exception
raised when the order is stored; no order is created, but the stock has changed. -/
theorem postOrders_invalid_address_or_payment :
    orderValidator noStreetRequest = [.addressFieldMissing "street"] ∧
    postOrders testStore testUser noStreetRequest
      = ({ products := [{ testProduct with stock := 8 }], orders := [] }, .thrown) ∧
    createOrder testStore testUser noStreetRequest
      = ({ products := [{ testProduct with stock := 8 }], orders := [] }, .thrown) ∧
    orderValidator bitcoinRequest = [.paymentNotListed] ∧
    postOrders testStore testUser bitcoinRequest
      = ({ products := [{ testProduct with stock := 8 }], orders := [] }, .thrown) ∧
    createOrder testStore testUser bitcoinRequest
      = ({ products := [{ testProduct with stock := 8 }], orders := [] }, .thrown) := by
  decide!

/-- C13: `createOrder` answers 400 and returns the store as it was, whatever the store
holds, when `items` is missing, not an array or empty (error: items required); otherwise
when `shippingAddress` is missing or not an object (error: address invalid); otherwise
when `paymentMethod` is missing or empty (error: payment method required). -/
theorem createOrder_input_checks (st : Store) (user : User) (body : Body) :
    ((body.items = .missing ∨ body.items = .notArray ∨ body.items = .array []) →
      createOrder st user body = (st, .failure .itemsRequired)) ∧
    (∀ items, body.items = .array items → items ≠ [] →
      (body.shippingAddress = .missing ∨ body.shippingAddress = .notObject) →
      createOrder st user body = (st, .failure .addressInvalid)) ∧
    (∀ items a, body.items = .array items → items ≠ [] →
      body.shippingAddress = .object a →
      (body.paymentMethod = none ∨ body.paymentMethod = some "") →
      createOrder st user body = (st, .failure .paymentRequired)) ∧
    ApiError.itemsRequired.statusCode = 400 ∧ ApiError.addressInvalid.statusCode = 400 ∧
    ApiError.paymentRequired.statusCode = 400 := by
  refine ⟨?_, ?_, ?_, rfl, rfl, rfl⟩
  · rintro (h | h | h) <;> simp [createOrder, h]
  · intro items hitems hne haddr
    have hlen : items.length ≠ 0 := fun h => hne (List.length_eq_zero.mp h)
    rcases haddr with h | h <;> simp [createOrder, hitems, hlen, h]
  · intro items a hitems hne haddr hpay
    have hlen : items.length ≠ 0 := fun h => hne (List.length_eq_zero.mp h)
    rcases hpay with h | h <;> simp [createOrder, hitems, hlen, haddr, h, truthyStr]

/-- A body without any field fails the items check, and the test request without its
payment method fails the payment check, on the test store. -/
theorem createOrder_input_checks_witness :
    createOrder testStore testUser
        { items := .missing, shippingAddress := .missing, paymentMethod := none }
      = (testStore, .failure .itemsRequired) ∧
    createOrder testStore testUser { testRequest with shippingAddress := .notObject }
      = (testStore, .failure .addressInvalid) ∧
    createOrder testStore testUser { testRequest with paymentMethod := none }
      = (testStore, .failure .paymentRequired) :=
  ⟨(createOrder_input_checks testStore testUser
      { items := .missing, shippingAddress := .missing, paymentMethod := none }).1
      (Or.inl rfl),
   (createOrder_input_checks testStore testUser
      { testRequest with shippingAddress := .notObject }).2.1
      [{ product := some 1, quantity := some 4, price := some (1999 / 100) }] rfl (by simp)
      (Or.inr rfl),
   (createOrder_input_checks testStore testUser { testRequest with paymentMethod := none }).2.2.1
      [{ product := some 1, quantity := some 4, price := some (1999 / 100) }] testAddress
      rfl (by simp) rfl (Or.inl rfl)⟩

/-! ## The status of an order -/

theorem createOrder_orders (st : Store) (user : User) (body : Body) :
    (createOrder st user body).1.orders = st.orders ∨
    ∃ order : Order, (createOrder st user body).1.orders = st.orders ++ [order] := by
  unfold createOrder
  split
  · exact Or.inl rfl
  · exact Or.inl rfl
  · split
    · exact Or.inl rfl
    split
    · exact Or.inl rfl
    · exact Or.inl rfl
    split
    · exact Or.inl rfl
    split
    · exact Or.inl rfl
    simp only
    split
    · exact Or.inl rfl
    split
    · exact Or.inl rfl
    · exact Or.inr ⟨_, rfl⟩

theorem cancelOrder_orders (st : Store) (user : User) (orderId : Id) :
    (cancelOrder st user orderId).1.orders = st.orders ∨
    ∃ order : Order, findOrder st.orders orderId = some order ∧ order.status = .pending ∧
      (cancelOrder st user orderId).1.orders = setStatus st.orders order.id .cancelled := by
  unfold cancelOrder
  split
  · exact Or.inl rfl
  · rename_i order hfind
    split
    · exact Or.inl rfl
    split
    · exact Or.inl rfl
    rename_i hstatus
    simp only
    split
    · exact Or.inl rfl
    · exact Or.inr ⟨order, hfind, not_not.mp hstatus, rfl⟩

theorem setStatus_getElem? {os : List Order} {id : Id} {order : Order}
    (hfind : findOrder os id = some order) (s : OrderStatus) (i : Nat) (o : Order)
    (ho : os[i]? = some o) :
    (setStatus os order.id s)[i]? = some o ∨
    (o = order ∧ (setStatus os order.id s)[i]? = some { order with status := s }) := by
  induction os generalizing i with
  | nil => simp at ho
  | cons a t ih =>
    have hid : order.id = id := by
      have := List.find?_some hfind
      simpa using this
    by_cases ha : a.id = id
    · have hao : a = order := by
        simpa [findOrder, List.find?_cons, ha] using hfind
      subst hao
      cases i with
      | zero =>
        right
        simp only [List.getElem?_cons_zero, Option.some.injEq] at ho
        exact ⟨ho.symm, by simp [setStatus]⟩
      | succ j =>
        left
        simpa [setStatus] using ho
    · have hne : ¬ a.id = order.id := by rw [hid]; exact ha
      have hfind' : findOrder t id = some order := by
        simpa [findOrder, List.find?_cons, ha] using hfind
      cases i with
      | zero =>
        left
        simpa [setStatus, hne] using ho
      | succ j =>
        have hj : t[j]? = some o := by simpa using ho
        rcases ih hfind' j hj with h | ⟨h1, h2⟩
        · left
          simpa [setStatus, hne] using h
        · right
          exact ⟨h1, by simpa [setStatus, hne] using h2⟩

theorem perform_statusStep (st : Store) (call : Call) (i : Nat) (o : Order)
    (ho : st.orders[i]? = some o) :
    ∃ o1, (perform st call).orders[i]? = some o1 ∧ StatusStep o o1 ∧
      ((∀ user orderId, call ≠ .cancel user orderId) → o1 = o) := by
  cases call with
  | create user body =>
    refine ⟨o, ?_, Or.inl rfl, fun _ => rfl⟩
    rcases createOrder_orders st user body with h | ⟨order, h⟩
    · simpa only [perform, h] using ho
    · simp only [perform, h]
      rw [List.getElem?_append_left (List.getElem?_eq_some.mp ho).1]
      exact ho
  | list user =>
    refine ⟨o, ?_, Or.inl rfl, fun _ => rfl⟩
    have : (getOrders st user).1 = st := by
      simp only [getOrders]
      split <;> rfl
    simpa only [perform, this] using ho
  | get user orderId =>
    refine ⟨o, ?_, Or.inl rfl, fun _ => rfl⟩
    have : (getOrderById st user orderId).1 = st := by
      simp only [getOrderById]
      split
      · rfl
      · split <;> rfl
    simpa only [perform, this] using ho
  | cancel user orderId =>
    rcases cancelOrder_orders st user orderId with h | ⟨order, hfind, hstatus, h⟩
    · exact ⟨o, by simpa only [perform, h] using ho, Or.inl rfl,
        fun hc => absurd rfl (hc user orderId)⟩
    · rcases setStatus_getElem? hfind .cancelled i o ho with h1 | ⟨h1, h2⟩
      · exact ⟨o, by simpa only [perform, h] using h1, Or.inl rfl,
          fun hc => absurd rfl (hc user orderId)⟩
      · subst h1
        exact ⟨{ o with status := .cancelled }, by simpa only [perform, h] using h2,
          Or.inr ⟨hstatus, rfl⟩, fun hc => absurd rfl (hc user orderId)⟩

theorem StatusStep.trans {a b c : Order} (h1 : StatusStep a b) (h2 : StatusStep b c) :
    StatusStep a c := by
  rcases h1 with rfl | ⟨hp, rfl⟩
  · exact h2
  · rcases h2 with rfl | ⟨hq, -⟩
    · exact Or.inr ⟨hp, rfl⟩
    · simp at hq

/-- C14: the order stored at any position of the Orders collection stays where it is
under any sequence of calls of `createOrder`, `getOrders`, `getOrderById` and
`cancelOrder`, and differs from what it was at most by having gone from `pending` to
`cancelled`; once `cancelled` it never changes again; and a single call that is not a
`cancelOrder` leaves it as it was. -/
theorem order_status_machine (st : Store) (i : Nat) (o : Order)
    (ho : st.orders[i]? = some o) :
    (∀ calls, ∃ o1, (performAll st calls).orders[i]? = some o1 ∧ StatusStep o o1) ∧
    (o.status = .cancelled → ∀ calls, (performAll st calls).orders[i]? = some o) ∧
    (∀ call, (∀ user orderId, call ≠ .cancel user orderId) →
      (perform st call).orders[i]? = some o) := by
  have hall : ∀ calls (st : Store) (o : Order), st.orders[i]? = some o →
      ∃ o1, (performAll st calls).orders[i]? = some o1 ∧ StatusStep o o1 := by
    intro calls
    induction calls with
    | nil => exact fun st o ho => ⟨o, ho, Or.inl rfl⟩
    | cons call calls ih =>
      intro st o ho
      obtain ⟨o1, h1, hs1, -⟩ := perform_statusStep st call i o ho
      obtain ⟨o2, h2, hs2⟩ := ih (perform st call) o1 h1
      exact ⟨o2, by simpa only [performAll, List.foldl_cons] using h2, hs1.trans hs2⟩
  refine ⟨fun calls => hall calls st o ho, ?_, ?_⟩
  · intro hc calls
    obtain ⟨o1, h1, hs⟩ := hall calls st o ho
    rcases hs with rfl | ⟨hp, -⟩
    · exact h1
    · rw [hc] at hp
      cases hp
  · intro call hcall
    obtain ⟨o1, h1, -, h3⟩ := perform_statusStep st call i o ho
    rw [h3 hcall] at h1
    exact h1

/-- The order of the test request through a fetch, a cancellation by its owner, a second
cancellation by an admin, a new order and a listing: it ends up `cancelled`, and from
there on it stays as it is. -/
theorem order_status_machine_witness :
    storeAfterCreate.orders[0]? = some createdOrder ∧
    (performAll storeAfterCreate
        [.get testUser 1, .cancel testUser 1, .cancel adminUser 1,
         .create otherUser testRequest, .list testUser]).orders[0]?
      = some { createdOrder with status := .cancelled } ∧
    (∀ calls, ∃ o1, (performAll storeAfterCreate calls).orders[0]? = some o1 ∧
      StatusStep createdOrder o1) ∧
    ∀ calls, (performAll storeAfterCancel calls).orders[0]?
      = some { createdOrder with status := .cancelled } :=
  ⟨by decide!, by decide!,
   (order_status_machine storeAfterCreate 0 createdOrder (by decide!)).1,
   (order_status_machine storeAfterCancel 0 { createdOrder with status := .cancelled }
     (by decide!)).2.1 rfl⟩

/-! ## Order retrieval -/

/-- C15: a successful `getOrders` answers 200, leaves the store as it was and lists
exactly the stored orders whose owner is the requester, in stored order: every order of
the requester is in the list and no order of another user is. -/
theorem getOrders_owned (st st1 : Store) (user : User) (s : Nat)
    (data : List (Order × List (Option (String × ℚ))))
    (h : getOrders st user = (st1, .success s data)) :
    st1 = st ∧ s = 200 ∧
    data.map Prod.fst = st.orders.filter (fun o => o.user == user.id) ∧
    ∀ o, o ∈ data.map Prod.fst ↔ (o ∈ st.orders ∧ o.user = user.id) := by
  simp only [getOrders] at h
  split at h
  · simp at h
  · simp only [Prod.mk.injEq, Response.success.injEq] at h
    obtain ⟨hst, hs, hdata⟩ := h
    have hmap : data.map Prod.fst = st.orders.filter (fun o => o.user == user.id) := by
      rw [← hdata, List.map_map]
      exact List.map_id _
    refine ⟨hst.symm, hs.symm, hmap, ?_⟩
    intro o
    rw [hmap, List.mem_filter]
    simp

/-- The order test "should get all user orders": the owner is listed the one order of the
store, which is theirs. -/
theorem getOrders_owned_witness :
    getOrders storeAfterCreate testUser
      = (storeAfterCreate, .success 200 [(createdOrder, [some ("Test Product", (100 : ℚ))])]) ∧
    ∀ o, o ∈ [(createdOrder, [some ("Test Product", (100 : ℚ))])].map Prod.fst
      ↔ (o ∈ storeAfterCreate.orders ∧ o.user = testUser.id) :=
  ⟨rfl,
   (getOrders_owned storeAfterCreate storeAfterCreate testUser 200
     [(createdOrder, [some ("Test Product", (100 : ℚ))])] rfl).2.2.2⟩

/-- C16: `getOrders` answers with the 404 failure "No orders found" exactly when no
stored order is owned by the requester, and with 200 and a non-empty list exactly when
some stored order is; the store is left as it was. -/
theorem getOrders_not_found_iff (st : Store) (user : User) :
    ((getOrders st user).2 = .failure .noOrders ↔ ∀ o ∈ st.orders, o.user ≠ user.id) ∧
    ((∃ data, data ≠ [] ∧ (getOrders st user).2 = .success 200 data)
      ↔ ∃ o ∈ st.orders, o.user = user.id) ∧
    ((getOrders st user).2.status? = some 404 ↔ ∀ o ∈ st.orders, o.user ≠ user.id) ∧
    (getOrders st user).1 = st := by
  by_cases hnone : (st.orders.filter (fun o => o.user == user.id)).length = 0
  · have hall : ∀ o ∈ st.orders, o.user ≠ user.id := by
      intro o ho hu
      have hmem : o ∈ st.orders.filter (fun o => o.user == user.id) :=
        List.mem_filter.mpr ⟨ho, by simpa using hu⟩
      rw [List.length_eq_zero.mp hnone] at hmem
      cases hmem
    have hres : getOrders st user = (st, .failure .noOrders) := by
      simp only [getOrders, hnone, if_true]
    rw [hres]
    refine ⟨⟨fun _ => hall, fun _ => rfl⟩, ⟨?_, ?_⟩, ⟨fun _ => hall, fun _ => rfl⟩, rfl⟩
    · rintro ⟨data, -, hd⟩
      cases hd
    · rintro ⟨o, ho, hu⟩
      exact absurd hu (hall o ho)
  · have hex : ∃ o ∈ st.orders, o.user = user.id := by
      obtain ⟨o, ho⟩ := List.exists_mem_of_length_pos (Nat.pos_of_ne_zero hnone)
      obtain ⟨h1, h2⟩ := List.mem_filter.mp ho
      exact ⟨o, h1, by simpa using h2⟩
    have hnall : ¬ ∀ o ∈ st.orders, o.user ≠ user.id := by
      intro hall
      obtain ⟨o, ho, hu⟩ := hex
      exact hall o ho hu
    have hres : getOrders st user
        = (st, .success 200 ((st.orders.filter (fun o => o.user == user.id)).map
            (fun o => (o, populate st.products o)))) := by
      simp only [getOrders, hnone, if_false]
    rw [hres]
    refine ⟨⟨fun h => (by cases h), fun h => absurd h hnall⟩, ⟨fun _ => hex, fun _ => ?_⟩,
      ⟨fun h => (by simp [Response.status?] at h), fun h => absurd h hnall⟩, rfl⟩
    refine ⟨_, ?_, rfl⟩
    intro hnil
    apply hnone
    rw [← List.length_map, hnil]
    rfl

/-! ## The response to an unknown route -/

/-- C17 (evaluation at the failing input): the answer to a request for a path no route
matches has status 404 and a body with `success: false` that carries its text under
`message` and has no `error` field, unlike the bodies the error middleware sends. -/
theorem notFoundHandler_has_no_error_field :
    notFoundHandler "/api/v1/unknown"
      = (404, { success := false,
                message := some "Can't find /api/v1/unknown on this server!" }) ∧
    (notFoundHandler "/api/v1/unknown").2.success = false ∧
    (notFoundHandler "/api/v1/unknown").2.error = none ∧
    (errorHandler "No orders found" 404).2.error = some "No orders found" := by
  decide

/-! ## Product ratings -/

theorem totalRatings_eq_sum (ratings : List Rating) :
    totalRatings ratings = (ratings.map (fun r => r.rating)).sum := by
  have key : ∀ (l : List Rating) (acc : ℚ),
      l.foldl (fun sum item => sum + item.rating) acc = acc + (l.map (fun r => r.rating)).sum := by
    intro l
    induction l with
    | nil => intro acc; simp
    | cons r l ih =>
      intro acc
      simp only [List.foldl_cons, List.map_cons, List.sum_cons, ih]
      ring
  rw [totalRatings, key, zero_add]

theorem findRated_id {ps : List RatedProduct} {id : Id} {p : RatedProduct}
    (h : findRated ps id = some p) : p.id = id := by
  have := List.find?_some h
  simpa using this

theorem findRated_mem {ps : List RatedProduct} {id : Id} {p : RatedProduct}
    (h : findRated ps id = some p) : p ∈ ps :=
  List.mem_of_find?_eq_some h

theorem findRated_saveRated {ps : List RatedProduct} {id : Id} {p q : RatedProduct}
    (h : findRated ps id = some p) (hq : q.id = id) :
    findRated (saveRated ps q) id = some q := by
  induction ps with
  | nil => simp [findRated] at h
  | cons a t ih =>
    by_cases ha : a.id = id
    · simp [saveRated, ha, hq, findRated, List.find?_cons]
    · have hne : ¬ a.id = q.id := by rw [hq]; exact ha
      have ht : findRated t id = some p := by
        simpa [findRated, List.find?_cons, ha] using h
      have := ih ht
      simpa [saveRated, hne, findRated, List.find?_cons, ha] using this

theorem mem_saveRated {ps : List RatedProduct} {q x : RatedProduct}
    (h : x ∈ saveRated ps q) : x ∈ ps ∨ x = q := by
  induction ps with
  | nil => simp [saveRated] at h
  | cons a t ih =>
    unfold saveRated at h
    split at h
    · rcases List.mem_cons.mp h with rfl | h
      · exact Or.inr rfl
      · exact Or.inl (List.mem_cons_of_mem _ h)
    · rcases List.mem_cons.mp h with rfl | h
      · exact Or.inl (List.mem_cons_self _ _)
      · rcases ih h with h | h
        · exact Or.inl (List.mem_cons_of_mem _ h)
        · exact Or.inr h

theorem addProductRating_fst (ps : List RatedProduct) (user : User) (productId : Id)
    (body : RatingBody) :
    (addProductRating ps user productId body).1 = ps ∨
    ∃ s data, addProductRating ps user productId body
      = ((addProductRating ps user productId body).1, .success s data) := by
  unfold addProductRating
  split
  · exact Or.inl rfl
  split
  · exact Or.inl rfl
  split
  · exact Or.inl rfl
  split
  · exact Or.inl rfl
  split
  · exact Or.inl rfl
  split
  · exact Or.inl rfl
  · exact Or.inr ⟨_, _, rfl⟩

/-- What a successful `addProductRating` did. -/
theorem addProductRating_success_inv {ps ps1 : List RatedProduct} {user : User}
    {productId : Id} {body : RatingBody} {s : Nat} {data : RatingData}
    (h : addProductRating ps user productId body = (ps1, .success s data)) :
    ∃ rating product old, body.rating = some rating ∧ 1 ≤ rating ∧ rating ≤ 5 ∧
      findRated ps productId = some product ∧ product.ratings = some old ∧
      (∀ r ∈ old, r.user ≠ user.id) ∧
      data.ratings = old ++ [{ user := user.id, rating := rating, review := body.review }] ∧
      data.averageRating = totalRatings data.ratings / data.ratings.length ∧
      data.productId = product.id ∧ s = 201 ∧
      ps1 = saveRated ps { product with ratings := some data.ratings,
                                        averageRating := some data.averageRating } := by
  unfold addProductRating at h
  split at h
  · simp at h
  rename_i rating hrating
  split at h
  · simp at h
  rename_i hrange
  split at h
  · simp at h
  split at h
  · simp at h
  rename_i product hfind
  split at h
  · simp at h
  rename_i old hold
  split at h
  · simp at h
  rename_i hany
  simp only [Prod.mk.injEq, ProductResponse.success.injEq] at h
  obtain ⟨hps, hs, hdata⟩ := h
  subst hdata
  have hr : 1 ≤ rating ∧ rating ≤ 5 := by
    simp only [not_or, not_lt] at hrange
    exact ⟨hrange.2.1, hrange.2.2⟩
  refine ⟨rating, product, old, hrating, hr.1, hr.2, hfind, hold, ?_, rfl, rfl, rfl, hs.symm,
    hps.symm⟩
  intro r hr' hu
  apply hany
  simp only [List.any_eq_true]
  exact ⟨r, hr', by simpa using hu⟩

/-- C18: after a successful `addProductRating` the average returned, which is the
`averageRating` saved on the product, is the sum of the rating values of the product's
rating list divided by their number, the list being the former one with the new rating
at its end. -/
theorem addProductRating_average (ps ps1 : List RatedProduct) (user : User) (productId : Id)
    (body : RatingBody) (s : Nat) (data : RatingData)
    (h : addProductRating ps user productId body = (ps1, .success s data)) :
    data.averageRating = (data.ratings.map (fun r => r.rating)).sum / data.ratings.length ∧
    (∃ saved, findRated ps1 productId = some saved ∧ saved.ratings = some data.ratings ∧
      saved.averageRating = some data.averageRating) ∧
    ∃ old rating, body.rating = some rating ∧
      data.ratings = old ++ [{ user := user.id, rating := rating, review := body.review }] := by
  obtain ⟨rating, product, old, hrating, -, -, hfind, -, -, hdata, havg, -, -, hps⟩ :=
    addProductRating_success_inv h
  refine ⟨?_, ?_, old, rating, hrating, hdata⟩
  · rw [havg, totalRatings_eq_sum]
  · refine ⟨{ product with ratings := some data.ratings,
                             averageRating := some data.averageRating }, ?_, rfl, rfl⟩
    have hid : product.id = productId := findRated_id hfind
    rw [hps]
    exact findRated_saveRated hfind hid

/-- A product rated 4 by one user is rated 5 by the test user: the average becomes 9/2. -/
theorem addProductRating_average_witness :
    addProductRating [ratedProduct] testUser 1 { rating := some 5 }
      = ([{ ratedProduct with ratings := some ratingsAfter, averageRating := some (9 / 2) }],
         .success 201 { productId := 1, ratings := ratingsAfter, averageRating := 9 / 2 }) ∧
    (9 / 2 : ℚ) = (ratingsAfter.map (fun r => r.rating)).sum / ratingsAfter.length :=
  ⟨by decide!,
   (addProductRating_average [ratedProduct]
     [{ ratedProduct with ratings := some ratingsAfter, averageRating := some (9 / 2) }]
     testUser 1 { rating := some 5 } 201
     { productId := 1, ratings := ratingsAfter, averageRating := 9 / 2 } (by decide!)).1⟩

/-- Read through the product schema of the sources, a document has no `ratings`
property, and the handler then raises an exception for every valid rating. -/
theorem addProductRating_without_ratings (ps : List RatedProduct) (user : User)
    (productId : Id) (body : RatingBody) (product : RatedProduct)
    (hfind : findRated ps productId = some product) (hnone : product.ratings = none) :
    ∀ s data, (addProductRating ps user productId body).2 ≠ .success s data := by
  intro s data h
  have h' : addProductRating ps user productId body
      = ((addProductRating ps user productId body).1, .success s data) := by
    rw [← h]
  obtain ⟨-, product', old, -, -, -, hfind', hold, -⟩ := addProductRating_success_inv h'
  rw [hfind] at hfind'
  cases hfind'
  rw [hnone] at hold
  cases hold

/-- C19: `addProductRating` keeps every rating list free of two ratings by the same user;
called by a user who already has a rating on the product it fails with 400 and changes
nothing; and a successful call appends exactly one rating, for the caller, to the former
list. -/
theorem addProductRating_one_per_user (ps : List RatedProduct) (user : User) (productId : Id)
    (body : RatingBody) :
    ((∀ p ∈ ps, ∀ l, p.ratings = some l → (l.map (fun r => r.user)).Nodup) →
      ∀ p ∈ (addProductRating ps user productId body).1,
        ∀ l, p.ratings = some l → (l.map (fun r => r.user)).Nodup) ∧
    (∀ product l, findRated ps productId = some product → product.ratings = some l →
      (∃ r ∈ l, r.user = user.id) →
      (addProductRating ps user productId body).2.status? = some 400 ∧
      (addProductRating ps user productId body).1 = ps) ∧
    (∀ ps1 s data, addProductRating ps user productId body = (ps1, .success s data) →
      ∃ product old r, findRated ps productId = some product ∧ product.ratings = some old ∧
        r.user = user.id ∧ (∀ x ∈ old, x.user ≠ user.id) ∧ data.ratings = old ++ [r] ∧
        ∃ saved, findRated ps1 productId = some saved ∧ saved.ratings = some (old ++ [r]) ∧
          saved.averageRating = some data.averageRating) := by
  refine ⟨?_, ?_, ?_⟩
  · intro hinv p hp l hl
    rcases addProductRating_fst ps user productId body with hsame | ⟨s, data, hres⟩
    · rw [hsame] at hp
      exact hinv p hp l hl
    · obtain ⟨rating, product, old, -, -, -, hfind, hold, hfresh, hdata, -, -, -, hps⟩ :=
        addProductRating_success_inv hres
      rw [hps] at hp
      rcases mem_saveRated hp with hp | hp
      · exact hinv p hp l hl
      · rw [hp] at hl
        simp only [Option.some.injEq] at hl
        rw [← hl, hdata, List.map_append, List.map_cons, List.map_nil]
        have hold' := hinv product (findRated_mem hfind) old hold
        rw [List.nodup_append]
        refine ⟨hold', List.nodup_singleton _, ?_⟩
        intro a ha hb
        rw [List.mem_singleton] at hb
        obtain ⟨r, hr, hru⟩ := List.mem_map.mp ha
        exact hfresh r hr (hru.trans hb)
  · intro product l hfind hl ⟨r, hr, hu⟩
    have hany : l.any (fun r => r.user == user.id) = true := by
      simp only [List.any_eq_true]
      exact ⟨r, hr, by simpa using hu⟩
    unfold addProductRating
    split
    · exact ⟨rfl, rfl⟩
    split
    · exact ⟨rfl, rfl⟩
    split
    · exact ⟨rfl, rfl⟩
    simp [hfind, hl, hany, ProductResponse.status?, ProductError.statusCode]
  · intro ps1 s data h
    obtain ⟨rating, product, old, -, -, -, hfind, hold, hfresh, hdata, -, -, -, hps⟩ :=
      addProductRating_success_inv h
    have hid : product.id = productId := findRated_id hfind
    refine ⟨product, old, _, hfind, hold, rfl, hfresh, hdata,
      { product with ratings := some data.ratings, averageRating := some data.averageRating },
      ?_, ?_, rfl⟩
    · rw [hps]
      exact findRated_saveRated hfind hid
    · simp only [hdata]

/-- The test user rates `ratedProduct` once, with success, and a second time, in vain. -/
theorem addProductRating_one_per_user_witness :
    addProductRating [ratedProduct] testUser 1 { rating := some 5 }
      = ([{ ratedProduct with ratings := some ratingsAfter, averageRating := some (9 / 2) }],
         .success 201 { productId := 1, ratings := ratingsAfter, averageRating := 9 / 2 }) ∧
    (addProductRating
        [{ ratedProduct with ratings := some ratingsAfter, averageRating := some (9 / 2) }]
        testUser 1 { rating := some 3 }).2.status? = some 400 ∧
    (addProductRating
        [{ ratedProduct with ratings := some ratingsAfter, averageRating := some (9 / 2) }]
        testUser 1 { rating := some 3 }).1
      = [{ ratedProduct with ratings := some ratingsAfter, averageRating := some (9 / 2) }] :=
  ⟨by decide!,
   (addProductRating_one_per_user
      [{ ratedProduct with ratings := some ratingsAfter, averageRating := some (9 / 2) }]
      testUser 1 { rating := some 3 }).2.1
      { ratedProduct with ratings := some ratingsAfter, averageRating := some (9 / 2) }
      ratingsAfter (by decide!) rfl ⟨{ user := 1, rating := 5 }, by decide!, rfl⟩⟩

/-! ## Product creation -/

/-- The validation loop on a single entry: no error is reported exactly when the name is
present and non-empty and price and stock are present and greater than 0. -/
theorem validateEntries_single (product : ProductEntry) :
    validateEntries [product] 0 [] = [] ↔
      ∃ name price stock, product.name = some name ∧ name ≠ "" ∧
        product.price = some price ∧ 0 < price ∧ product.stock = some stock ∧ 0 < stock := by
  rcases hn : product.name with _ | name
  · simp [validateEntries, truthyStr, hn]
  rcases hp : product.price with _ | price
  · simp [validateEntries, truthyNum, hn, hp]
  rcases hs : product.stock with _ | stock
  · simp [validateEntries, truthyNum, hn, hp, hs]
  by_cases hne : name = ""
  · simp [validateEntries, truthyStr, hn, hp, hs, hne]
  by_cases hp0 : price = 0
  · simp [validateEntries, truthyStr, truthyNum, hn, hp, hs, hne, hp0]
  by_cases hs0 : stock = 0
  · simp [validateEntries, truthyStr, truthyNum, hn, hp, hs, hne, hp0, hs0]
  simp only [validateEntries, truthyStr, truthyNum, hn, hp, hs, hne, hp0, hs0, ne_eq,
    not_false_eq_true, decide_True, Bool.not_true, Bool.or_self, Bool.false_eq_true, if_false,
    List.not_mem_nil, List.append_nil, List.append_eq_nil, Option.some.injEq, exists_and_left,
    exists_eq_left', true_and]
  constructor
  · rintro ⟨h1, h2⟩
    have hp1 : ¬ price ≤ 0 := by
      intro hle
      simp [hle] at h1
    have hs1 : ¬ stock < 0 := by
      intro hlt
      simp [hlt] at h2
    exact ⟨lt_of_not_ge hp1, lt_of_le_of_ne (not_lt.mp hs1) (Ne.symm hs0)⟩
  · rintro ⟨h1, h2⟩
    exact ⟨by simp [not_le.mpr h1], by simp [not_lt.mpr (le_of_lt h2)]⟩

/-- C20 (evaluation at the failing input): an entry with a name, a price of 499.99 and a
stock of 0 is not accepted: the loop reports it as "missing required fields" and the
request fails with 400, nothing being inserted, although the validators of the product
schema accept a stock of 0 and the same entry with a stock of 50 is created. -/
theorem createProduct_rejects_zero_stock :
    createProduct testStore adminUser (.array [{ smartphone with stock := some 0 }])
      = (testStore, .failure (.validationErrors [.missingFields 0])) ∧
    (createProduct testStore adminUser
      (.array [{ smartphone with stock := some 0 }])).2.status? = some 400 ∧
    (entryDocument 2 3 { smartphone with stock := some 0 }).map (fun p => p.stock) = some 0 ∧
    (createProduct testStore adminUser (.array [smartphone])).2.status? = some 201 := by
  decide!


/-! ## Product names -/

/-- C21 (evaluation at the failing input): in a catalog with the products "Laptop" and
"Phone", `updateProductById` gives the second the name "Laptop": the call answers 200 and
the catalog then holds two products with the same name.  `createProduct` makes sure the
names of a request are in no stored product; `updateProductById` makes no such check.
(`createProduct` itself stores two products named "Smartphone" for a request with the
names "Smartphone " and "Smartphone", which differ in the request and are trimmed by the
schema.) -/
theorem updateProductById_duplicate_name :
    (twoProductStore.products.map (fun p => p.name)).Nodup ∧
    (updateProductById twoProductStore 2 renameToLaptop).2.status? = some 200 ∧
    (updateProductById twoProductStore 2 renameToLaptop).1.products.map (fun p => p.name)
      = ["Laptop", "Laptop"] ∧
    (createProduct twoProductStore adminUser
      (.array [{ smartphone with name := some "Laptop" }])).2
      = .failure (.duplicateNames ["Laptop"]) ∧
    (createProduct twoProductStore adminUser
      (.array [{ smartphone with name := some "Smartphone " }, smartphone])).2.status?
      = some 201 ∧
    (createProduct twoProductStore adminUser
      (.array [{ smartphone with name := some "Smartphone " }, smartphone])).1.products.map
        (fun p => p.name)
      = ["Laptop", "Phone", "Smartphone", "Smartphone"] := by
  decide!

/-! ## Authorization of the product routes -/

theorem protectedFor_passed {α : Type} {roles : List String} {decode : String → Option Id}
    {users : List UserDoc} {tokenBlacklist : List String} {token : Option String}
    {handler : UserDoc → α} {value : α}
    (h : protectedFor roles decode users tokenBlacklist token handler = .passed value) :
    ∃ user, protect decode users tokenBlacklist token = .passed user ∧ user.role ∈ roles ∧
      value = handler user := by
  unfold protectedFor at h
  split at h
  · cases h
  · rename_i user hp
    unfold authorize at h
    by_cases hr : user.role ∈ roles
    · simp only [hr, not_true_eq_false, if_false, Guard.passed.injEq] at h
      exact ⟨user, hp, hr, h.symm⟩
    · simp [hr] at h

/-- C22: `authorize(...roles)` passes control on exactly when the role of the
authenticated user is one of the listed roles, and otherwise fails with 403, in which case
the handler behind it does not run; on the routes `POST /products`, `PUT /products/:id` and
`DELETE /products/:id` a handler is reached only by a user whose role is `admin`, so a
request authenticated as a user of role `user` is refused with 403. -/
theorem authorize_admin_only (roles : List String) (user : UserDoc)
    (decode : String → Option Id) (users : List UserDoc) (tokenBlacklist : List String)
    (st : Store) (token : Option String) (products : ProductsField) (productId : Id)
    (body : ProductEntry) :
    (authorize roles user = .passed () ↔ user.role ∈ roles) ∧
    (¬ user.role ∈ roles →
      authorize roles user = .refused (.accessDenied user.role) ∧
      (AuthError.accessDenied user.role).statusCode = 403) ∧
    (protect decode users tokenBlacklist token = .passed user → ¬ user.role ∈ roles →
      ∀ handler : UserDoc → Store,
        protectedFor roles decode users tokenBlacklist token handler
          = .refused (.accessDenied user.role)) ∧
    (∀ r, postProducts decode users tokenBlacklist st token products = .passed r →
      ∃ u, protect decode users tokenBlacklist token = .passed u ∧ u.role = "admin") ∧
    (∀ r, putProduct decode users tokenBlacklist st token productId body = .passed r →
      ∃ u, protect decode users tokenBlacklist token = .passed u ∧ u.role = "admin") ∧
    (∀ r, deleteProduct decode users tokenBlacklist st token productId = .passed r →
      ∃ u, protect decode users tokenBlacklist token = .passed u ∧ u.role = "admin") ∧
    (protect decode users tokenBlacklist token = .passed user → user.role = "user" →
      postProducts decode users tokenBlacklist st token products
        = .refused (.accessDenied "user") ∧
      putProduct decode users tokenBlacklist st token productId body
        = .refused (.accessDenied "user") ∧
      deleteProduct decode users tokenBlacklist st token productId
        = .refused (.accessDenied "user")) := by
  have hadmin : ∀ {α : Type} (handler : UserDoc → α) (r : α),
      protectedFor ["admin"] decode users tokenBlacklist token handler = .passed r →
      ∃ u, protect decode users tokenBlacklist token = .passed u ∧ u.role = "admin" := by
    intro α handler r h
    obtain ⟨u, hu, hr, -⟩ := protectedFor_passed h
    exact ⟨u, hu, by simpa using hr⟩
  refine ⟨?_, ?_, ?_, fun r h => hadmin _ r h, fun r h => hadmin _ r h,
    fun r h => hadmin _ r h, ?_⟩
  · by_cases hr : user.role ∈ roles <;> simp [authorize, hr]
  · intro hr
    exact ⟨by simp [authorize, hr], rfl⟩
  · intro hp hr handler
    simp [protectedFor, hp, authorize, hr]
  · intro hp hrole
    simp [postProducts, putProduct, deleteProduct, protectedFor, hp, authorize, hrole]

/-- The product tests "should not allow regular user to create product" and "should not
allow regular user to delete product": the token of the regular user is refused with 403,
while that of the admin reaches the handler. -/
theorem authorize_admin_only_witness :
    protect testDecode testUsers [] (some "user-token") = .passed userDoc ∧
    postProducts testDecode testUsers [] testStore (some "user-token") (.single smartphone)
      = .refused (.accessDenied "user") ∧
    putProduct testDecode testUsers [] testStore (some "user-token") 1 renameToLaptop
      = .refused (.accessDenied "user") ∧
    deleteProduct testDecode testUsers [] testStore (some "user-token") 1
      = .refused (.accessDenied "user") ∧
    deleteProduct testDecode testUsers [] testStore (some "admin-token") 1
      = .passed ({ products := [], orders := [] }, .success 200 ()) :=
  ⟨by decide!,
   ((authorize_admin_only ["admin"] userDoc testDecode testUsers [] testStore
      (some "user-token") (.single smartphone) 1 renameToLaptop).2.2.2.2.2.2
      (by decide!) rfl).1,
   ((authorize_admin_only ["admin"] userDoc testDecode testUsers [] testStore
      (some "user-token") (.single smartphone) 1 renameToLaptop).2.2.2.2.2.2
      (by decide!) rfl).2.1,
   ((authorize_admin_only ["admin"] userDoc testDecode testUsers [] testStore
      (some "user-token") (.single smartphone) 1 renameToLaptop).2.2.2.2.2.2
      (by decide!) rfl).2.2,
   by decide!⟩

/-! ## Logout -/

theorem authStep_mono (decode : String → Option Id) (users : List UserDoc)
    (tokenBlacklist : List String) (call : AuthCall) (x : String) (hx : x ∈ tokenBlacklist) :
    x ∈ authStep decode users tokenBlacklist call := by
  cases call with
  | other token => exact hx
  | logout token =>
    simp only [authStep]
    split
    · exact hx
    · unfold logout
      split
      · exact hx
      · split
        · exact hx
        · exact List.mem_append_left _ hx

theorem authRun_mono (decode : String → Option Id) (users : List UserDoc)
    (calls : List AuthCall) (tokenBlacklist : List String) (x : String)
    (hx : x ∈ tokenBlacklist) : x ∈ authRun decode users tokenBlacklist calls := by
  induction calls generalizing tokenBlacklist with
  | nil => exact hx
  | cons call calls ih =>
    simp only [authRun, List.foldl_cons]
    exact ih _ (authStep_mono decode users tokenBlacklist call x hx)

/-- C23: once `logout` has run with a bearer token, the token is on the blacklist and
stays there through every later sequence of requests (no request takes a token off the
blacklist); from then on `protect` refuses every request presenting the token with the 401
of the blacklist check, whatever `jwt.verify` and the Users collection say, and the handler
behind it does not run. -/
theorem logout_blacklists_token (tokenBlacklist : List String) (t : String) (ht : t ≠ "") :
    (logout tokenBlacklist (some t)).1 = tokenBlacklist ++ [t] ∧
    (∀ decode users calls,
      t ∈ authRun decode users (logout tokenBlacklist (some t)).1 calls) ∧
    (∀ decode users calls x, x ∈ tokenBlacklist → x ∈ authRun decode users tokenBlacklist calls) ∧
    (∀ decode users calls decode1 users1,
      protect decode1 users1 (authRun decode users (logout tokenBlacklist (some t)).1 calls)
        (some t) = .refused .tokenBlacklisted) ∧
    (∀ decode users calls decode1 users1 (handler : UserDoc → Store),
      protectedRoute decode1 users1
        (authRun decode users (logout tokenBlacklist (some t)).1 calls) (some t) handler
        = .refused .tokenBlacklisted) ∧
    AuthError.tokenBlacklisted.statusCode = 401 := by
  have hlog : (logout tokenBlacklist (some t)).1 = tokenBlacklist ++ [t] := by
    simp [logout, ht]
  have hmem : ∀ decode users calls,
      t ∈ authRun decode users (logout tokenBlacklist (some t)).1 calls := by
    intro decode users calls
    apply authRun_mono
    rw [hlog]
    simp
  have hprot : ∀ decode users calls decode1 users1,
      protect decode1 users1 (authRun decode users (logout tokenBlacklist (some t)).1 calls)
        (some t) = .refused .tokenBlacklisted := by
    intro decode users calls decode1 users1
    simp [protect, ht, hmem decode users calls]
  refine ⟨hlog, hmem, fun decode users calls x hx => authRun_mono decode users calls _ x hx,
    hprot, ?_, rfl⟩
  intro decode users calls decode1 users1 handler
  simp only [protectedRoute, hprot]

/-- The regular user logs out; the admin then logs out and other requests follow; the
token of the regular user is refused with 401 afterwards. -/
theorem logout_blacklists_token_witness :
    protect testDecode testUsers [] (some "user-token") = .passed userDoc ∧
    logout [] (some "user-token") = (["user-token"], .thrown) ∧
    authRun testDecode testUsers (logout [] (some "user-token")).1
        [.other (some "user-token"), .logout (some "admin-token"), .logout (some "user-token")]
      = ["user-token", "admin-token"] ∧
    protect testDecode testUsers
        (authRun testDecode testUsers (logout [] (some "user-token")).1
          [.other (some "user-token"), .logout (some "admin-token"),
           .logout (some "user-token")])
        (some "user-token") = .refused .tokenBlacklisted :=
  ⟨by decide!, by decide!, by decide!,
   (logout_blacklists_token [] "user-token" (by decide)).2.2.2.1 testDecode testUsers
     [.other (some "user-token"), .logout (some "admin-token"), .logout (some "user-token")]
     testDecode testUsers⟩

/-! ## The route `GET /users` -/

/-- C24 (evaluation at the failing input): a request to `GET /users` without a token, and
one with the token of a user of role `user`, are answered 200 with the list of all users:
the route mounts neither `protect` nor `authorize("admin")`. -/
theorem getUsersRoute_is_public :
    getUsersRoute testDecode testUsers [] none = .passed (200, testUsers) ∧
    getUsersRoute testDecode testUsers [] (some "user-token") = .passed (200, testUsers) ∧
    protect testDecode testUsers [] none = .refused .tokenMissing ∧
    protectedFor ["admin"] testDecode testUsers [] (some "user-token") (fun _ => getUsers testUsers)
      = .refused (.accessDenied "user") := by
  decide!

/-! ## Profile updates -/

/-- C25 (counterexample): every key of the body is `name`, and yet no update is applied:
the id names no user and the answer is 404. -/
theorem updateProfileById_unknown_user :
    (∀ k ∈ [("name", "Non-existent User")].map Prod.fst, k = "name" ∨ k = "role") ∧
    updateProfileById testUsers userDoc 99 [("name", "Non-existent User")]
      = (testUsers, .failure .userNotFound) := by
  decide

/-- C25 (amended): a body with a key other than `name` and `role` (`email` and `password`
included) is rejected with 400 and leaves the users as they were; an update is applied
only when every key is `name` or `role`, and it is applied whenever, in addition, the id
names a user and the values pass the validators of the schema; the requester is not
looked at, so a body `{role: "admin"}` sets the role of the user the id names to `admin`,
whoever sends it. -/
theorem updateProfileById_fields (users : List UserDoc) (caller : UserDoc) (userId : Id)
    (body : List (String × String)) :
    ((∃ k ∈ body.map Prod.fst, k ≠ "name" ∧ k ≠ "role") →
      (updateProfileById users caller userId body).2.status? = some 400 ∧
      (updateProfileById users caller userId body).1 = users) ∧
    ((∃ s data, (updateProfileById users caller userId body).2 = .success s data) →
      ∀ k ∈ body.map Prod.fst, k = "name" ∨ k = "role") ∧
    (∀ user, (∀ k ∈ body.map Prod.fst, k = "name" ∨ k = "role") →
      userUpdateValid body = true → users.find? (fun u => u.id == userId) = some user →
      updateProfileById users caller userId body
        = (replaceUser users (applyUserUpdate user body),
           .success 200 (applyUserUpdate user body))) ∧
    (∀ user, users.find? (fun u => u.id == userId) = some user →
      updateProfileById users caller userId [("role", "admin")]
        = (replaceUser users { user with role := "admin" },
           .success 200 { user with role := "admin" })) ∧
    (∀ other, updateProfileById users other userId body
      = updateProfileById users caller userId body) := by
  have hfilter : (∀ k ∈ body.map Prod.fst, k = "name" ∨ k = "role") →
      (body.map Prod.fst).filter (fun update => decide (¬ update ∈ ["name", "role"])) = [] := by
    intro hall
    rw [List.filter_eq_nil_iff]
    intro k hk
    rcases hall k hk with h | h <;> simp [h]
  have hprot : (∀ k ∈ body.map Prod.fst, k = "name" ∨ k = "role") →
      (body.map Prod.fst).any (fun update => decide (update ∈ ["email", "password"])) = false := by
    intro hall
    rw [List.any_eq_false]
    intro k hk
    rcases hall k hk with h | h <;> simp [h]
  refine ⟨?_, ?_, ?_, ?_, fun _ => rfl⟩
  · rintro ⟨k, hk, hn, hr⟩
    have hmem : k ∈ (body.map Prod.fst).filter
        (fun update => decide (¬ update ∈ ["name", "role"])) := by
      rw [List.mem_filter]
      exact ⟨hk, by simp [hn, hr]⟩
    have hpos : ((body.map Prod.fst).filter
        (fun update => decide (¬ update ∈ ["name", "role"]))).length > 0 :=
      List.length_pos_of_mem hmem
    have hres : updateProfileById users caller userId body
        = (users, .failure (.invalidFields ((body.map Prod.fst).filter
            (fun update => decide (¬ update ∈ ["name", "role"]))))) := by
      simp only [updateProfileById, hpos, if_true]
    rw [hres]
    exact ⟨rfl, rfl⟩
  · rintro ⟨s, data, h⟩ k hk
    by_contra hnot
    have hn : k ≠ "name" ∧ k ≠ "role" := by
      constructor
      · intro h1; exact hnot (Or.inl h1)
      · intro h1; exact hnot (Or.inr h1)
    have hmem : k ∈ (body.map Prod.fst).filter
        (fun update => decide (¬ update ∈ ["name", "role"])) := by
      rw [List.mem_filter]
      exact ⟨hk, by simp [hn.1, hn.2]⟩
    have hpos : ((body.map Prod.fst).filter
        (fun update => decide (¬ update ∈ ["name", "role"]))).length > 0 :=
      List.length_pos_of_mem hmem
    simp only [updateProfileById, hpos, if_true] at h
    cases h
  · intro user hall hvalid hfind
    simp only [updateProfileById, hfilter hall, hprot hall, hvalid, hfind, List.length_nil,
      gt_iff_lt, lt_self_iff_false, if_false, Bool.not_true, Bool.false_eq_true]
  · intro user hfind
    simp [updateProfileById, userUpdateValid, hfind, applyUserUpdate]

/-- The user test "should update a user's role": the regular user sends `{role: "admin"}`
for their own id and is an admin afterwards; the test "should reject updates to invalid
fields" is answered 400. -/
theorem updateProfileById_fields_witness :
    updateProfileById testUsers userDoc 1 [("role", "admin")]
      = ([{ userDoc with role := "admin" }, adminDoc],
         .success 200 { userDoc with role := "admin" }) ∧
    (updateProfileById testUsers userDoc 1 [("invalidField", "Invalid Value")]).2.status?
      = some 400 ∧
    (updateProfileById testUsers userDoc 1 [("invalidField", "Invalid Value")]).1 = testUsers :=
  ⟨by decide,
   ((updateProfileById_fields testUsers userDoc 1 [("invalidField", "Invalid Value")]).1
     ⟨"invalidField", by decide, by decide, by decide⟩).1,
   ((updateProfileById_fields testUsers userDoc 1 [("invalidField", "Invalid Value")]).1
     ⟨"invalidField", by decide, by decide, by decide⟩).2⟩

/-! ## Cancellation of an order whose product is gone -/

theorem collectLines_restore_none {ps : List Product} {lines : List OrderItem}
    (h : ∃ l ∈ lines, findProduct ps l.product = none) :
    collectLines (lines.map (restoreCallback ps)) = none := by
  induction lines with
  | nil =>
    obtain ⟨l, hl, -⟩ := h
    cases hl
  | cons a rest ih =>
    obtain ⟨l, hl, hf⟩ := h
    rcases hc : restoreCallback ps a with _ | ⟨id, v, line, t⟩
    · simp [List.map_cons, hc, collectLines]
    · rcases List.mem_cons.mp hl with rfl | hl
      · simp [restoreCallback, hf] at hc
      · simp [List.map_cons, hc, collectLines, ih ⟨l, hl, hf⟩]

/-- C26: when a line of a pending order references a product that is no longer in the
store, `cancelOrder` called by the owner (or by an admin) does not complete: it ends with
an exception, not with a success response, and the Orders collection is as it was, so the
order is still `pending`. -/
theorem cancelOrder_missing_product (st : Store) (user : User) (orderId : Id) (order : Order)
    (hfind : findOrder st.orders orderId = some order)
    (hauth : order.user = user.id ∨ user.role = "admin")
    (hstatus : order.status = .pending)
    (hgone : ∃ l ∈ order.items, findProduct st.products l.product = none) :
    (cancelOrder st user orderId).2 = .thrown ∧
    (cancelOrder st user orderId).1.orders = st.orders ∧
    findOrder (cancelOrder st user orderId).1.orders orderId = some order := by
  have hna : ¬ (order.user ≠ user.id ∧ user.role ≠ "admin") := by
    rintro ⟨h1, h2⟩
    rcases hauth with h3 | h3
    · exact h1 h3
    · exact h2 h3
  have hres : cancelOrder st user orderId
      = ({ st with products :=
            applyWrites st.products (order.items.map (restoreCallback st.products)) },
          .thrown) := by
    simp only [cancelOrder, hfind, hna, if_false, hstatus, ne_eq, not_true_eq_false,
      collectLines_restore_none hgone]
  rw [hres]
  exact ⟨rfl, rfl, hfind⟩

/-- The order of the test request after the test product was deleted: the owner cannot
cancel it. -/
theorem cancelOrder_missing_product_witness :
    (cancelOrder { storeAfterCreate with products := [] } testUser 1).2 = .thrown ∧
    (cancelOrder { storeAfterCreate with products := [] } testUser 1).1.orders
      = [createdOrder] ∧
    findOrder (cancelOrder { storeAfterCreate with products := [] } testUser 1).1.orders 1
      = some createdOrder :=
  cancelOrder_missing_product { storeAfterCreate with products := [] } testUser 1 createdOrder
    (by decide!) (Or.inl rfl) rfl
    ⟨{ product := 1, quantity := 4, price := 100 }, by decide!, by decide!⟩

/-! ## The order of the checks of `cancelOrder` -/

/-- C27: `cancelOrder` answers 404 for an id that matches no order, whoever calls, and 403
for a caller who is neither the owner nor an admin on an existing order, whatever the
status of the order; the store is as it was in both cases. -/
theorem cancelOrder_check_order (st : Store) (user : User) (orderId : Id) :
    (findOrder st.orders orderId = none →
      cancelOrder st user orderId = (st, .failure .orderNotFound) ∧
      (cancelOrder st user orderId).2.status? = some 404) ∧
    (∀ order, findOrder st.orders orderId = some order →
      order.user ≠ user.id → user.role ≠ "admin" →
      cancelOrder st user orderId = (st, .failure .notAuthorizedCancel) ∧
      (cancelOrder st user orderId).2.status? = some 403 ∧
      (cancelOrder st user orderId).2 ≠ .failure .notPending) := by
  constructor
  · intro hnone
    have hres : cancelOrder st user orderId = (st, .failure .orderNotFound) := by
      simp [cancelOrder, hnone]
    rw [hres]
    exact ⟨rfl, rfl⟩
  · intro order hfind hu hr
    have hres : cancelOrder st user orderId = (st, .failure .notAuthorizedCancel) := by
      simp [cancelOrder, hfind, hu, hr]
    rw [hres]
    exact ⟨rfl, rfl, by simp⟩

/-- An unknown id gives 404; another user's cancelled order gives 403. -/
theorem cancelOrder_check_order_witness :
    cancelOrder storeAfterCancel otherUser 77 = (storeAfterCancel, .failure .orderNotFound) ∧
    cancelOrder storeAfterCancel otherUser 1
      = (storeAfterCancel, .failure .notAuthorizedCancel) :=
  ⟨((cancelOrder_check_order storeAfterCancel otherUser 77).1 (by decide!)).1,
   ((cancelOrder_check_order storeAfterCancel otherUser 1).2
     { createdOrder with status := .cancelled } (by decide!) (by decide) (by decide)).1⟩

/-! ## An order for the whole stock -/

/-- C28: a request with one item, for a quantity of at least 1 (so for any positive whole
number) of an existing product, with a complete address and a listed payment method, is
answered 201 whenever the quantity is at most the stock, the stock falling by the
quantity: to 0 when the quantity equals the stock.  It is turned down for insufficient
stock exactly when the quantity is greater than the stock. -/
theorem createOrder_exact_stock (st : Store) (user : User) (body : Body) (item : ItemReq)
    (a : Address) (pm : String) (pid : Id) (q : ℚ) (product : Product)
    (hitems : body.items = .array [item]) (hp : item.product = some pid)
    (hq : item.quantity = some q) (hq1 : 1 ≤ q)
    (haddr : body.shippingAddress = .object a)
    (ha : truthyStr a.street = true ∧ truthyStr a.city = true ∧ truthyStr a.state = true ∧
      truthyStr a.zipCode = true ∧ truthyStr a.country = true)
    (hpay : body.paymentMethod = some pm)
    (hpm : pm = "creditCard" ∨ pm = "debitCard" ∨ pm = "paypal")
    (hf : findProduct st.products pid = some product) :
    (q ≤ product.stock →
      ∃ st1 order, createOrder st user body = (st1, .success 201 order) ∧
        stockOf st1.products pid = product.stock - q) ∧
    (q = product.stock →
      ∃ st1 order, createOrder st user body = (st1, .success 201 order) ∧
        stockOf st1.products pid = 0) ∧
    (product.stock < q ↔
      createOrder st user body
        = (st, .failure (.insufficientStock product.name product.stock))) := by
  have hq0 : q ≠ 0 := by
    intro h
    rw [h] at hq1
    norm_num at hq1
  have hpmne : truthyStr (some pm) = true := by
    rcases hpm with h | h | h <;> simp [truthyStr, h]
  have hpay' : truthyStr body.paymentMethod = true := by rw [hpay]; exact hpmne
  have hsuccess : q ≤ product.stock →
      ∃ st1 order, createOrder st user body = (st1, .success 201 order) ∧
        stockOf st1.products pid = product.stock - q := by
    intro hle
    have hv : validateItems st.products [item] = none := by
      rw [validateItems_none_iff]
      intro it hit
      rw [List.mem_singleton] at hit
      subst hit
      exact ⟨pid, q, product, hp, hq, hq0, hf, hle⟩
    have hcb := orderCallback_of_passes hp hq hf hle
    have hschema : orderSchemaValid [{ product := pid, quantity := q, price := product.price }]
        (.object a) (some pm) = some (a, pm) := by
      rcases hpm with h | h | h <;>
        simp [orderSchemaValid, hq1, ha.1, ha.2.1, ha.2.2.1, ha.2.2.2.1, ha.2.2.2.2, h]
    have hres : createOrder st user body
        = ({ products := applyWrites st.products
              [.saved pid (product.stock - q)
                { product := pid, quantity := q, price := product.price } (product.price * q)],
             orders := st.orders ++ [
              { id := nextOrderId st.orders, user := user.id,
                items := [{ product := pid, quantity := q, price := product.price }],
                totalAmount := accumulateTotal
                  [.saved pid (product.stock - q)
                    { product := pid, quantity := q, price := product.price }
                    (product.price * q)],
                shippingAddress := a, paymentMethod := pm, status := .pending }] },
           .success 201
              { id := nextOrderId st.orders, user := user.id,
                items := [{ product := pid, quantity := q, price := product.price }],
                totalAmount := accumulateTotal
                  [.saved pid (product.stock - q)
                    { product := pid, quantity := q, price := product.price }
                    (product.price * q)],
                shippingAddress := a, paymentMethod := pm, status := .pending }) := by
      simp only [createOrder, hitems, List.length_singleton, one_ne_zero, if_false, haddr, hpay,
        hpmne, Bool.not_true, Bool.false_eq_true, hv, List.map_cons, List.map_nil, hcb,
        collectLines, Option.map_some', hschema]
    refine ⟨_, _, hres, ?_⟩
    have := createOrder_stock_last_line st _ user body 201 _ hres pid product hf
    rw [this]
    simp [lastSave]
  refine ⟨hsuccess, ?_, ?_⟩
  · intro heq
    obtain ⟨st1, order, h1, h2⟩ := hsuccess (le_of_eq heq)
    exact ⟨st1, order, h1, by rw [h2, heq, sub_self]⟩
  · constructor
    · intro hlt
      apply createOrder_of_validation_error hitems (by simp) haddr hpay'
      simp [validateItems, hp, hq, truthyNum, hq0, hf, hlt]
    · intro hfail
      by_contra hnlt
      obtain ⟨st1, order, h1, -⟩ := hsuccess (not_lt.mp hnlt)
      rw [h1] at hfail
      cases hfail

/-- An order for the 10 units of the test product, on a stock of 10: 201 and a stock of
0; the order test "should not place an order with insufficient stock" asks for 999. -/
theorem createOrder_exact_stock_witness :
    (∃ st1 order,
      createOrder testStore testUser (testBody [{ product := some 1, quantity := some 10 }])
        = (st1, .success 201 order) ∧ stockOf st1.products 1 = 0) ∧
    createOrder testStore testUser (testBody [{ product := some 1, quantity := some 999 }])
      = (testStore, .failure (.insufficientStock "Test Product" 10)) :=
  ⟨(createOrder_exact_stock testStore testUser
      (testBody [{ product := some 1, quantity := some 10 }])
      { product := some 1, quantity := some 10 } testAddress "creditCard" 1 10 testProduct
      rfl rfl rfl (by decide) rfl (by decide) rfl (Or.inl rfl) (by decide)).2.1 (by decide!),
   (createOrder_exact_stock testStore testUser
      (testBody [{ product := some 1, quantity := some 999 }])
      { product := some 1, quantity := some 999 } testAddress "creditCard" 1 999 testProduct
      rfl rfl rfl (by decide) rfl (by decide) rfl (Or.inl rfl) (by decide)).2.2.1
      (by decide!)⟩

/-! ## Inventory conservation -/

/-- C29 (evaluation at the failing inputs): the stock of the test product plus the
quantity its pending orders record is 10 before, and 13 after, a successful `createOrder`
with two lines of 3 units of the product; it is 10 before, and 8 after, a `createOrder`
that is turned down because of its payment method; and it is 10 before, and 7 after, the
successful `cancelOrder` of a pending order with two lines of 3 units, on a stock of 4. -/
theorem inventory_not_conserved :
    inventory testStore 1 = 10 ∧
    createOrder testStore testUser
        (testBody [{ product := some 1, quantity := some 3 },
                   { product := some 1, quantity := some 3 }])
      = (twoLineStore 7, .success 201 twoLineOrder) ∧
    inventory (twoLineStore 7) 1 = 13 ∧
    (createOrder testStore testUser bitcoinRequest).2 = .thrown ∧
    inventory (createOrder testStore testUser bitcoinRequest).1 1 = 8 ∧
    inventory (twoLineStore 4) 1 = 10 ∧
    (cancelOrder (twoLineStore 4) testUser 1).2
      = .success 200 { twoLineOrder with status := .cancelled } ∧
    inventory (cancelOrder (twoLineStore 4) testUser 1).1 1 = 7 := by
  decide!

theorem pendingQuantity_append (os : List Order) (o : Order) (id : Id) :
    pendingQuantity (os ++ [o]) id
      = pendingQuantity os id
        + (if o.status = .pending then orderedQuantity o.items id else 0) := by
  unfold pendingQuantity
  rw [List.filter_append, List.map_append, List.sum_append]
  by_cases h : o.status = .pending
  · simp [List.filter_cons, h]
  · simp [List.filter_cons, h]

theorem pendingQuantity_setStatus {os : List Order} {orderId : Id} {order : Order}
    (hfind : findOrder os orderId = some order) (hstatus : order.status = .pending) (id : Id) :
    pendingQuantity (setStatus os order.id .cancelled) id
      = pendingQuantity os id - orderedQuantity order.items id := by
  have hid : order.id = orderId := by
    have := List.find?_some hfind
    simpa using this
  induction os with
  | nil => simp [findOrder] at hfind
  | cons a t ih =>
    by_cases ha : a.id = orderId
    · have hao : a = order := by
        simpa [findOrder, List.find?_cons, ha] using hfind
      subst hao
      simp [setStatus, pendingQuantity, List.filter_cons, hstatus]
    · have hne : ¬ a.id = order.id := by rw [hid]; exact ha
      have hfind' : findOrder t orderId = some order := by
        simpa [findOrder, List.find?_cons, ha] using hfind
      have := ih hfind'
      simp only [pendingQuantity] at this ⊢
      by_cases hs : a.status = .pending
      · simp only [setStatus, hne, if_false, List.filter_cons, hs, beq_self_eq_true, if_true,
          List.map_cons, List.sum_cons, this]
        ring
      · simp [setStatus, hne, List.filter_cons, hs, this]

/-- When `createOrder` succeeds on a request no two lines of which reference the same
product, the stock of every existing product plus the quantity its pending orders record
is what it was. -/
theorem createOrder_conserves_inventory_distinct (st st1 : Store) (user : User) (body : Body)
    (s : Nat) (order : Order) (h : createOrder st user body = (st1, .success s order))
    (hd : (order.items.map (fun l => l.product)).Nodup)
    (id : Id) (p : Product) (hf : findProduct st.products id = some p) :
    inventory st1 id = inventory st id := by
  have hstock := createOrder_stock_distinct st st1 user body s order h hd id p hf
  obtain ⟨items, -, -, -, -, -, -, -, hstatus, -, hst⟩ := createOrder_success_inv h
  have horders : st1.orders = st.orders ++ [order] := by rw [hst]
  simp only [inventory, hstock, horders, pendingQuantity_append, hstatus, if_true]
  ring

/-- When the owner or an admin cancels a pending order whose lines reference existing
products, pairwise distinct, the stock of every existing product plus the quantity its
pending orders record is what it was. -/
theorem cancelOrder_conserves_inventory_distinct (st : Store) (user : User) (orderId : Id)
    (order : Order) (hfind : findOrder st.orders orderId = some order)
    (hauth : order.user = user.id ∨ user.role = "admin")
    (hstatus : order.status = .pending)
    (hlines : ∀ l ∈ order.items,
      ∃ p, findProduct st.products l.product = some p ∧ 0 ≤ p.stock + l.quantity)
    (hd : (order.items.map (fun l => l.product)).Nodup)
    (id : Id) (p : Product) (hf : findProduct st.products id = some p) :
    inventory (cancelOrder st user orderId).1 id = inventory st id := by
  have hstock := (cancelOrder_stock_distinct st user orderId order hfind hauth hstatus hlines
    hd id p hf).2
  have horders : (cancelOrder st user orderId).1.orders
      = setStatus st.orders order.id .cancelled := by
    rw [cancelOrder_of_restorable hfind hauth hstatus hlines]
  simp only [inventory, hstock, horders, pendingQuantity_setStatus hfind hstatus]
  ring

/-! ## Bounds of the ratings -/

theorem ratings_sum_bounds (l : List Rating) (h : ∀ r ∈ l, 1 ≤ r.rating ∧ r.rating ≤ 5) :
    (l.length : ℚ) ≤ (l.map (fun r => r.rating)).sum ∧
    (l.map (fun r => r.rating)).sum ≤ 5 * (l.length : ℚ) := by
  induction l with
  | nil => simp
  | cons r l ih =>
    obtain ⟨h1, h2⟩ := ih (fun x hx => h x (List.mem_cons_of_mem _ hx))
    obtain ⟨h3, h4⟩ := h r (List.mem_cons_self _ _)
    simp only [List.length_cons, List.map_cons, List.sum_cons, Nat.cast_add, Nat.cast_one]
    constructor <;> linarith

/-- C30: when the ratings stored on a product all lie between 1 and 5, a successful
`addProductRating` leaves an `averageRating` between 1 and 5 and a rating list whose
values all lie between 1 and 5, the new one included. -/
theorem addProductRating_bounds (ps ps1 : List RatedProduct) (user : User) (productId : Id)
    (body : RatingBody) (s : Nat) (data : RatingData)
    (h : addProductRating ps user productId body = (ps1, .success s data))
    (hold : ∀ product l, findRated ps productId = some product → product.ratings = some l →
      ∀ r ∈ l, 1 ≤ r.rating ∧ r.rating ≤ 5) :
    1 ≤ data.averageRating ∧ data.averageRating ≤ 5 ∧
    (∀ r ∈ data.ratings, 1 ≤ r.rating ∧ r.rating ≤ 5) ∧
    ∃ saved, findRated ps1 productId = some saved ∧ saved.ratings = some data.ratings ∧
      saved.averageRating = some data.averageRating := by
  obtain ⟨rating, product, old, -, hr1, hr5, hfind, hratings, -, hdata, havg, -, -, hps⟩ :=
    addProductRating_success_inv h
  have hall : ∀ r ∈ data.ratings, 1 ≤ r.rating ∧ r.rating ≤ 5 := by
    intro r hr
    rw [hdata, List.mem_append, List.mem_singleton] at hr
    rcases hr with hr | hr
    · exact hold product old hfind hratings r hr
    · rw [hr]
      exact ⟨hr1, hr5⟩
  have hlen : (0 : ℚ) < (data.ratings.length : ℚ) := by
    rw [hdata]
    simp only [List.length_append, List.length_singleton, Nat.cast_add, Nat.cast_one]
    positivity
  obtain ⟨hlo, hhi⟩ := ratings_sum_bounds data.ratings hall
  have hid : product.id = productId := findRated_id hfind
  refine ⟨?_, ?_, hall,
    { product with ratings := some data.ratings,
                   averageRating := some data.averageRating }, ?_, rfl, rfl⟩
  · rw [havg, totalRatings_eq_sum, le_div_iff₀ hlen]
    linarith
  · rw [havg, totalRatings_eq_sum, div_le_iff₀ hlen]
    linarith
  · rw [hps]
    exact findRated_saveRated hfind hid

/-- A product rated 4 is rated 5 by the test user: the average, 9/2, and both ratings lie
between 1 and 5. -/
theorem addProductRating_bounds_witness :
    addProductRating [ratedProduct] testUser 1 { rating := some 5 }
      = ([{ ratedProduct with ratings := some ratingsAfter, averageRating := some (9 / 2) }],
         .success 201 { productId := 1, ratings := ratingsAfter, averageRating := 9 / 2 }) ∧
    (1 : ℚ) ≤ 9 / 2 ∧ (9 / 2 : ℚ) ≤ 5 :=
  ⟨by decide!,
   (addProductRating_bounds [ratedProduct]
     [{ ratedProduct with ratings := some ratingsAfter, averageRating := some (9 / 2) }]
     testUser 1 { rating := some 5 } 201
     { productId := 1, ratings := ratingsAfter, averageRating := 9 / 2 } (by decide!)
     (by
       intro product l hfind hl r hr
       have hp : product = ratedProduct := by
         have : findRated [ratedProduct] 1 = some ratedProduct := by decide!
         rw [this] at hfind
         exact (Option.some.inj hfind).symm
       subst hp
       have hl' : l = [{ user := 2, rating := 4, review := some "Works well" }] :=
         (Option.some.inj hl).symm
       subst hl'
       rw [List.mem_singleton] at hr
       subst hr
       exact ⟨by decide!, by decide!⟩)).1,
   (addProductRating_bounds [ratedProduct]
     [{ ratedProduct with ratings := some ratingsAfter, averageRating := some (9 / 2) }]
     testUser 1 { rating := some 5 } 201
     { productId := 1, ratings := ratingsAfter, averageRating := 9 / 2 } (by decide!)
     (by
       intro product l hfind hl r hr
       have hp : product = ratedProduct := by
         have : findRated [ratedProduct] 1 = some ratedProduct := by decide!
         rw [this] at hfind
         exact (Option.some.inj hfind).symm
       subst hp
       have hl' : l = [{ user := 2, rating := 4, review := some "Works well" }] :=
         (Option.some.inj hl).symm
       subst hl'
       rw [List.mem_singleton] at hr
       subst hr
       exact ⟨by decide!, by decide!⟩)).2.1⟩

end Ecommerce
